import Mathlib

/-!
Verification development for the Chemical Equipment Parameter Visualizer
backend (Django REST application under backend/api/).

The development shallowly embeds the data model and the operations of the
backend: database tables become lists of records, Django querysets become
list filters, timestamps become natural numbers (seconds), numeric values
become rationals, and each HTTP view becomes a pure function from an
explicit state to a new state and a response value.  Randomness (the OTP
code drawn by secrets.randbelow) and the outcome of sending an email via
SendGrid are inputs of the corresponding functions.
-/

namespace CEPV

/-! ## OTP store (backend/api/models.py, class EmailOTP) -/

/-- Minutes until an OTP expires.  The source reads
`getattr(settings, 'OTP_EXPIRY_MINUTES', 10)`; the settings module does not
override it here, so the getattr default 10 applies. -/
def OTP_EXPIRY_MINUTES : Nat := 10

/-- One row of the EmailOTP table (models.py lines 13-53).  Timestamps are
seconds since an arbitrary epoch. -/
structure OtpRow where
  id : Nat
  email : String
  otp_code : String
  otp_type : String
  expires_at : Nat
  is_used : Bool
  created_at : Nat
  deriving Repr, DecidableEq

/-- Result of EmailOTP.verify_otp: the source returns a triple
(is_valid, otp_instance or None, error_message or None). -/
inductive VerifyOut where
  | ok (r : OtpRow)
  | err (msg : String)
  deriving Repr, DecidableEq

/-- EmailOTP.generate_otp (models.py lines 58-94): first marks every unused
OTP row for this email and type as used, then inserts a fresh row whose
expiry is now plus OTP_EXPIRY_MINUTES minutes.  The 6-digit code produced by
secrets.randbelow is the `otp_code` argument, and `newId` is the primary key
the database assigns. -/
def generate_otp (db : List OtpRow) (email otp_type otp_code : String)
    (now newId : Nat) : List OtpRow × OtpRow :=
  let invalidated := db.map (fun r =>
    if r.email = email ∧ r.otp_type = otp_type ∧ r.is_used = false then
      { r with is_used := true }
    else r)
  let row : OtpRow :=
    { id := newId, email := email, otp_code := otp_code, otp_type := otp_type
      expires_at := now + 60 * OTP_EXPIRY_MINUTES, is_used := false
      created_at := now }
  (invalidated ++ [row], row)

/-- EmailOTP.mark_as_used (models.py lines 100-103), applied to the row with
the given primary key. -/
def mark_as_used (db : List OtpRow) (rowId : Nat) : List OtpRow :=
  db.map (fun r => if r.id = rowId then { r with is_used := true } else r)

/-- The queryset `filter(email=…, otp_code=…, otp_type=…, is_used=False)`
inside EmailOTP.verify_otp (models.py lines 119-124). -/
def matchingOtps (db : List OtpRow) (email otp_code otp_type : String) :
    List OtpRow :=
  db.filter (fun r => decide (r.email = email ∧ r.otp_code = otp_code ∧
    r.otp_type = otp_type ∧ r.is_used = false))

/-- One comparison step of the `.latest('created_at')` scan. -/
def latestStep (acc : Option OtpRow) (r : OtpRow) : Option OtpRow :=
  match acc with
  | none => some r
  | some m => if m.created_at < r.created_at then some r else some m

/-- Django `.latest('created_at')`: the row with the greatest created_at
among the matches (ties resolved to the earliest listed), or none when the
queryset is empty (which the source surfaces as DoesNotExist). -/
def latestByCreated (db : List OtpRow) : Option OtpRow :=
  db.foldl latestStep none

/-- EmailOTP.is_valid (models.py lines 96-98): not used and not yet expired
(strict comparison `timezone.now() < self.expires_at`). -/
def otpIsValid (r : OtpRow) (now : Nat) : Bool :=
  decide (r.is_used = false ∧ now < r.expires_at)

/-- EmailOTP.verify_otp (models.py lines 105-132). -/
def verify_otp (db : List OtpRow) (email otp_code otp_type : String)
    (now : Nat) : VerifyOut :=
  match latestByCreated (matchingOtps db email otp_code otp_type) with
  | none => .err "Invalid OTP. Please check and try again."
  | some otp =>
      if otpIsValid otp now then .ok otp
      else .err "OTP has expired. Please request a new one."

/-! ## User accounts and authentication flows
(backend/api/auth_serializers.py, backend/api/auth_views.py) -/

/-- A row of Django's auth_user table, with the fields this application
touches.  The stored password hash is modelled as the raw password, and
check_password / authenticate as string equality. -/
structure DUser where
  username : String
  email : String
  password : String
  first_name : String
  last_name : String
  is_active : Bool
  deriving Repr, DecidableEq

/-- Python str.lower restricted to ASCII, on the character list. -/
def toLowerStr (s : String) : String := ⟨s.data.map Char.toLower⟩

/-- Python str.strip: drop whitespace from both ends. -/
def trimStr (s : String) : String :=
  ⟨((s.data.dropWhile Char.isWhitespace).reverse.dropWhile
      Char.isWhitespace).reverse⟩

/-- The serializers normalize an email with `value.lower().strip()`. -/
def normEmail (s : String) : String := trimStr (toLowerStr s)

/-- Django's `email__iexact` lookup: case-insensitive string equality. -/
def iexact (a b : String) : Bool := toLowerStr a = toLowerStr b

/-- Update the first element satisfying the predicate, leaving the rest
unchanged.  Models loading one object from a queryset and saving it. -/
def updateFirst (p : α → Bool) (f : α → α) : List α → List α
  | [] => []
  | x :: xs => if p x then f x :: xs else x :: updateFirst p f xs

/-- Split an optional full name into first and last name following
RegisterSerializer.create: `name.split(' ', 1)` after stripping. -/
def splitName (name : String) : String × String :=
  let n := trimStr name
  if n = "" then ("", "")
  else
    match n.splitOn " " with
    | [] => ("", "")
    | f :: rest => (f, String.intercalate " " rest)

/-- State of the authentication subsystem: the user table, the EmailOTP
table and the next OTP primary key. -/
structure AuthState where
  users : List DUser
  otps : List OtpRow
  nextOtpId : Nat
  deriving Repr, DecidableEq

/-- A HTTP-level response reduced to status code and message. -/
structure HttpResp where
  status : Nat
  message : String
  deriving Repr, DecidableEq

/-- RegisterSerializer field and cross-field validation
(auth_serializers.py lines 46-69): the email must not belong to an active
account, the password must be at least 8 characters, and the two password
fields must match.  (Django's configurable password-strength validators and
the email-format check are outside the modelled state.) -/
def registerValidate (users : List DUser) (email password confirm : String) :
    Bool :=
  let e := normEmail email
  (match users.find? (fun u => iexact u.email e) with
   | some u => !u.is_active
   | none => true)
  && decide (8 ≤ password.length)
  && decide (password = confirm)

/-- RegisterSerializer.create (auth_serializers.py lines 71-108): re-use an
existing inactive account (updating password and name) or create a fresh
user with is_active = False.  Returns the new user table and the created or
updated user. -/
def registerCreate (users : List DUser) (email name password : String) :
    List DUser × DUser :=
  let e := normEmail email
  let nm := splitName name
  match users.find? (fun u => iexact u.email e) with
  | some u0 =>
      if u0.is_active = false then
        let upd := fun (u : DUser) =>
          { u with password := password
                   first_name := if trimStr name = "" then u.first_name else nm.1
                   last_name := if trimStr name = "" then u.last_name else nm.2 }
        (updateFirst (fun u => iexact u.email e) upd users, upd u0)
      else
        -- validation rejects this case; the source would fall through to
        -- create_user and fail on the duplicate username
        let u : DUser := ⟨e, e, password, nm.1, nm.2, false⟩
        (users ++ [u], u)
  | none =>
      let u : DUser := ⟨e, e, password, nm.1, nm.2, false⟩
      (users ++ [u], u)

/-- The register view (auth_views.py lines 64-116).  `otp_code` is the
random code generate_otp draws and `sendOk` the outcome of the SendGrid
call; note the OTP row is stored even when sending fails (the view then
answers 500). -/
def register (s : AuthState) (email password confirm name otp_code : String)
    (now : Nat) (sendOk : Bool) : AuthState × HttpResp :=
  if registerValidate s.users email password confirm then
    let e := normEmail email
    let created := registerCreate s.users email name password
    let gen := generate_otp s.otps e "signup" otp_code now s.nextOtpId
    let s' : AuthState := ⟨created.1, gen.1, s.nextOtpId + 1⟩
    if sendOk then
      (s', ⟨201, "Account created successfully. Please check your email for verification code."⟩)
    else
      (s', ⟨500, "send failed"⟩)
  else
    (s, ⟨400, "validation errors"⟩)

/-- The verify_signup_otp view (auth_views.py lines 119-185): check the
serializer, verify the OTP, activate the user found by case-insensitive
email, and mark the OTP row used. -/
def verify_signup_otp (s : AuthState) (email otp : String) (now : Nat) :
    AuthState × HttpResp :=
  if decide (otp.length = 6) && otp.data.all Char.isDigit then
    let e := normEmail email
    match verify_otp s.otps e otp "signup" now with
    | .err m => (s, ⟨400, m⟩)
    | .ok r =>
        match s.users.find? (fun u => iexact u.email e) with
        | none => (s, ⟨404, "User not found. Please register again."⟩)
        | some _ =>
            let users' := updateFirst (fun u => iexact u.email e)
              (fun u => { u with is_active := true }) s.users
            (⟨users', mark_as_used s.otps r.id, s.nextOtpId⟩,
             ⟨200, "Email verified successfully. Your account is now active."⟩)
  else
    (s, ⟨400, "validation errors"⟩)

/-- Result of the login view: the logged-in user or an error response. -/
inductive LoginOut where
  | ok (u : DUser)
  | err (resp : HttpResp)
  deriving Repr, DecidableEq

/-- LoginSerializer.validate plus the login view (auth_serializers.py lines
155-182, auth_views.py lines 192-232): find the user by email, reject
inactive accounts, then authenticate by username and password. -/
def login (s : AuthState) (email password : String) : LoginOut :=
  let e := normEmail email
  match s.users.find? (fun u => iexact u.email e) with
  | none => .err ⟨400, "No account found with this email address."⟩
  | some u =>
      if u.is_active = false then
        .err ⟨400, "Please verify your email address before logging in."⟩
      else
        match s.users.find? (fun v => v.username = u.username ∧
            v.password = password ∧ v.is_active = true) with
        | some v => .ok v
        | none => .err ⟨400, "Invalid password."⟩

/-- The generic message of the password-reset request endpoint
(auth_views.py line 266). -/
def genericResetMessage : String :=
  "If an account exists with this email, you will receive a password reset code."

/-- The request_password_reset view (auth_views.py lines 239-287):
when the serializer accepts the email it always answers 200 with the
generic message; when an active account exists a password-reset OTP row is
generated and an email send is attempted, whose outcome is ignored. -/
def request_password_reset (s : AuthState) (email : String)
    (emailValid : Bool) (otp_code : String) (now : Nat) (sendOk : Bool) :
    AuthState × HttpResp :=
  if emailValid then
    let e := normEmail email
    match s.users.find? (fun u => iexact u.email e && u.is_active) with
    | some _ =>
        let gen := generate_otp s.otps e "password_reset" otp_code now s.nextOtpId
        (⟨s.users, gen.1, s.nextOtpId + 1⟩, ⟨200, genericResetMessage⟩)
    | none => (s, ⟨200, genericResetMessage⟩)
  else
    (s, ⟨400, "validation errors"⟩)

/-- The verify_reset_otp view (auth_views.py lines 290-335): checks the OTP
without marking it used and never changes state. -/
def verify_reset_otp (s : AuthState) (email otp : String) (now : Nat) :
    AuthState × HttpResp :=
  if decide (otp.length = 6) && otp.data.all Char.isDigit then
    let e := normEmail email
    match verify_otp s.otps e otp "password_reset" now with
    | .err m => (s, ⟨400, m⟩)
    | .ok _ =>
        (s, ⟨200, "OTP verified successfully. You can now reset your password."⟩)
  else
    (s, ⟨400, "validation errors"⟩)

/-- The reset_password view (auth_views.py lines 338-402): validate the
serializer, verify the password-reset OTP, update the user's password and
mark the OTP used. -/
def reset_password (s : AuthState) (email otp new_password confirm : String)
    (now : Nat) : AuthState × HttpResp :=
  if decide (otp.length = 6) && otp.data.all Char.isDigit &&
      decide (8 ≤ new_password.length) && decide (new_password = confirm) then
    let e := normEmail email
    match verify_otp s.otps e otp "password_reset" now with
    | .err m => (s, ⟨400, m⟩)
    | .ok r =>
        match s.users.find? (fun u => iexact u.email e) with
        | none => (s, ⟨404, "User not found."⟩)
        | some _ =>
            let users' := updateFirst (fun u => iexact u.email e)
              (fun u => { u with password := new_password }) s.users
            (⟨users', mark_as_used s.otps r.id, s.nextOtpId⟩,
             ⟨200, "Password reset successfully. You can now login with your new password."⟩)
  else
    (s, ⟨400, "validation errors"⟩)

/-- The resend_otp view (auth_views.py lines 409-457): re-issue a signup or
password-reset OTP when the corresponding (inactive or active) account
exists, revealing nothing otherwise. -/
def resend_otp (s : AuthState) (email otp_type otp_code : String)
    (now : Nat) : AuthState × HttpResp :=
  let e := normEmail email
  if e = "" then (s, ⟨400, "Email is required."⟩)
  else if otp_type = "signup" then
    match s.users.find? (fun u => iexact u.email e && !u.is_active) with
    | some _ =>
        let gen := generate_otp s.otps e "signup" otp_code now s.nextOtpId
        (⟨s.users, gen.1, s.nextOtpId + 1⟩, ⟨200, "sent"⟩)
    | none =>
        (s, ⟨200, "If the email is registered and pending verification, you will receive a new code."⟩)
  else if otp_type = "password_reset" then
    match s.users.find? (fun u => iexact u.email e && u.is_active) with
    | some _ =>
        let gen := generate_otp s.otps e "password_reset" otp_code now s.nextOtpId
        (⟨s.users, gen.1, s.nextOtpId + 1⟩, ⟨200, "sent"⟩)
    | none =>
        (s, ⟨200, "If an account exists with this email, you will receive a new code."⟩)
  else
    (s, ⟨400, "Invalid OTP type. Use \"signup\" or \"password_reset\"."⟩)

/-- One invocation of an authentication endpoint, with all of its request
data and environment outcomes. -/
inductive AuthOp where
  | register (email password confirm name otp_code : String) (now : Nat) (sendOk : Bool)
  | verifySignup (email otp : String) (now : Nat)
  | loginOp (email password : String)
  | requestReset (email : String) (emailValid : Bool) (otp_code : String) (now : Nat) (sendOk : Bool)
  | verifyReset (email otp : String) (now : Nat)
  | resetPassword (email otp new_password confirm : String) (now : Nat)
  | resendOtp (email otp_type otp_code : String) (now : Nat)
  deriving Repr

/-- Dispatch of one endpoint invocation on the authentication state. -/
def authStep (s : AuthState) : AuthOp → AuthState × HttpResp
  | .register e p c n code now send => register s e p c n code now send
  | .verifySignup e o now => verify_signup_otp s e o now
  | .loginOp e p =>
      match login s e p with
      | .ok _ => (s, ⟨200, "Login successful."⟩)
      | .err r => (s, r)
  | .requestReset e v code now send => request_password_reset s e v code now send
  | .verifyReset e o now => verify_reset_otp s e o now
  | .resetPassword e o np c now => reset_password s e o np c now
  | .resendOtp e t code now => resend_otp s e t code now

/-! ## Datasets, equipment and the CSV upload pipeline
(backend/api/models.py, backend/api/views.py) -/

/-- A cell of the uploaded table as pandas sees it: `numVal` is what
`pd.to_numeric(…, errors='coerce')` yields for the cell (none for NaN,
i.e. a value that does not parse as a number), and `strVal` is `str(value)`,
the form used for the Equipment Name and Type text fields and for the keys
of `value_counts()`. -/
structure RawCell where
  numVal : Option ℚ
  strVal : String
  deriving Repr, DecidableEq

/-- The parsed CSV: a pandas dataframe reduced to its column names and its
rows (each row aligned with `cols`). -/
structure DF where
  cols : List String
  rows : List (List RawCell)
  deriving Repr

/-- The `column_mapping` dict of upload_csv (views.py lines 67-73). -/
def columnMapping : List (String × List String) :=
  [("Equipment Name",
      ["Equipment Name", "equipment_name", "Name", "name", "EquipmentName"]),
   ("Type", ["Type", "type", "Equipment Type", "equipment_type", "EquipmentType"]),
   ("Flowrate", ["Flowrate", "flowrate", "Flow Rate", "flow_rate", "FlowRate"]),
   ("Pressure", ["Pressure", "pressure"]),
   ("Temperature", ["Temperature", "temperature", "Temp", "temp"])]

/-- The `required_columns` list of upload_csv (views.py line 84). -/
def requiredColumns : List String :=
  ["Equipment Name", "Type", "Flowrate", "Pressure", "Temperature"]

/-- Accepted name variations for a standard column. -/
def variationsOf (std : String) : List String :=
  match columnMapping.find? (fun p => p.1 = std) with
  | some p => p.2
  | none => []

/-- The `actual_columns` lookup (views.py lines 76-81): the first variation
of the standard name that occurs among the (stripped) column names. -/
def actualColumn (cols : List String) (std : String) : Option String :=
  (variationsOf std).find? (fun v => cols.contains v)

/-- The `missing_columns` computation (views.py line 85). -/
def missingColumns (cols : List String) : List String :=
  requiredColumns.filter (fun std => (actualColumn cols std).isNone)

/-- The rename map `{v: k for k, v in actual_columns.items()}` applied to
one column name (views.py line 95). -/
def renameCol (cols : List String) (c : String) : String :=
  match requiredColumns.find? (fun std => actualColumn cols std = some c) with
  | some std => std
  | none => c

/-- All column names after `df.rename` (views.py line 95). -/
def renamedCols (cols : List String) : List String :=
  cols.map (renameCol cols)

/-- The cell of a row under a given column name (first occurrence of the
name, as pandas column selection does). -/
def cellAt (cols : List String) (row : List RawCell) (c : String) :
    Option RawCell :=
  row[cols.findIdx (fun x => x = c)]?

/-- A row survives `df.dropna(subset=['Flowrate','Pressure','Temperature'])`
after the `pd.to_numeric` coercion (views.py lines 98-102) exactly when all
three numeric cells parsed. -/
def numericOk (cols : List String) (row : List RawCell) : Bool :=
  ["Flowrate", "Pressure", "Temperature"].all (fun c =>
    match cellAt cols row c with
    | some cell => cell.numVal.isSome
    | none => false)

/-- Numeric value of a cell of a surviving row (0 when absent, which the
pipeline never uses on surviving rows). -/
def numAt (cols : List String) (row : List RawCell) (c : String) : ℚ :=
  match cellAt cols row c with
  | some cell => cell.numVal.getD 0
  | none => 0

/-- String value of a cell (empty when the column is absent). -/
def strAt (cols : List String) (row : List RawCell) (c : String) : String :=
  match cellAt cols row c with
  | some cell => cell.strVal
  | none => ""

/-- Sum of a numeric column over a list of rows. -/
def colSum (cols : List String) (rows : List (List RawCell)) (c : String) : ℚ :=
  (rows.map (fun r => numAt cols r c)).sum

/-- Arithmetic mean of a numeric column (`df[col].mean()`). -/
def colMean (cols : List String) (rows : List (List RawCell)) (c : String) : ℚ :=
  colSum cols rows c / (rows.length : ℚ)

/-- Floor of a rational, computed on its numerator and denominator. -/
def floorQ (q : ℚ) : ℤ := Int.fdiv q.num (q.den : ℤ)

/-- Round a rational to the nearest integer, ties to the even integer, as
Python's built-in round (used on the column means) does. -/
def roundHalfEven (q : ℚ) : ℤ :=
  let f := floorQ q
  let r := q - (f : ℚ)
  if r < 1 / 2 then f
  else if 1 / 2 < r then f + 1
  else if f % 2 = 0 then f else f + 1

/-- Python `round(x, 2)`: round to two decimal places. -/
def round2 (q : ℚ) : ℚ := (roundHalfEven (q * 100) : ℚ) / 100

/-- The distinct elements of a list in order of first occurrence. -/
def firstOccs : List String → List String
  | [] => []
  | s :: rest => s :: firstOccs (rest.filter (fun x => decide (¬ x = s)))
  termination_by l => l.length
  decreasing_by
    simp only [List.length_cons]
    exact Nat.lt_succ_of_le (List.length_filter_le _ _)

/-- Number of occurrences of a value in a list. -/
def countOcc (l : List String) (t : String) : Nat :=
  (l.filter (fun x => decide (x = t))).length

/-- The `Type` column values of the surviving rows. -/
def typeValues (cols : List String) (rows : List (List RawCell)) :
    List String :=
  rows.map (fun r => strAt cols r "Type")

/-- `df['Type'].value_counts().to_dict()` (views.py line 114): the count of
rows per distinct Type value, as an association list. -/
def typeDistribution (cols : List String) (rows : List (List RawCell)) :
    List (String × Nat) :=
  (firstOccs (typeValues cols rows)).map
    (fun t => (t, countOcc (typeValues cols rows) t))

/-- Modelled from the spec: models.Dataset (models.py lines 135-161) lacks
the user foreign key that every view relies on (`user=request.user` in
upload_csv, and the `user=request.user` filters of get_history, get_dataset,
delete_dataset and generate_report); per the spec's per-user row filtering a
`userId` field is included here alongside the fields models.py declares.
The JSON `type_distribution` text field is kept as the association list it
serializes. -/
structure Dataset where
  id : Nat
  userId : Nat
  name : String
  uploaded_at : Nat
  total_equipment : Nat
  avg_flowrate : ℚ
  avg_pressure : ℚ
  avg_temperature : ℚ
  type_distribution : List (String × Nat)
  deriving Repr, DecidableEq

/-- A row of the Equipment table (models.py lines 164-179). -/
structure Equipment where
  id : Nat
  datasetId : Nat
  name : String
  equipment_type : String
  flowrate : ℚ
  pressure : ℚ
  temperature : ℚ
  deriving Repr, DecidableEq

/-- The dataset and equipment tables. -/
structure DataDB where
  datasets : List Dataset
  equipment : List Equipment
  deriving Repr, DecidableEq

/-- Dataset.Meta.ordering = ['-uploaded_at']: most recent first. -/
def sortDatasetsDesc (l : List Dataset) : List Dataset :=
  l.insertionSort (fun a b => b.uploaded_at ≤ a.uploaded_at)

/-- Equipment.Meta.ordering = ['name']: ascending by name. -/
def sortEquipByName (l : List Equipment) : List Equipment :=
  l.insertionSort (fun a b => a.name ≤ b.name)

/-- Response of the upload view, reduced to the data the claims mention. -/
inductive UploadResp where
  | created (datasetId total : Nat) (avgF avgP avgT : ℚ)
      (dist : List (String × Nat))
  | missingCols (missing found : List String)
  | noValidRows
  deriving Repr, DecidableEq

/-- The stripped and renamed column names of an upload (views.py lines
64-95). -/
def normCols (df : DF) : List String :=
  renamedCols (df.cols.map (fun c => trimStr c))

/-- The rows that survive numeric coercion and dropna (views.py lines
98-102). -/
def validRows (df : DF) : List (List RawCell) :=
  df.rows.filter (numericOk (normCols df))

/-- The Dataset record upload_csv stores (views.py lines 110-126): row
count, the three column means rounded to two decimals, and the Type value
counts. -/
def mkDatasetRecord (df : DF) (uid : Nat) (fileName : String)
    (now dsId : Nat) : Dataset :=
  ⟨dsId, uid, fileName, now, (validRows df).length,
   round2 (colMean (normCols df) (validRows df) "Flowrate"),
   round2 (colMean (normCols df) (validRows df) "Pressure"),
   round2 (colMean (normCols df) (validRows df) "Temperature"),
   typeDistribution (normCols df) (validRows df)⟩

/-- The Equipment records upload_csv stores, one per surviving row
(views.py lines 129-139). -/
def newEquipRecords (df : DF) (dsId eqIdBase : Nat) : List Equipment :=
  (validRows df).enum.map (fun p =>
    (⟨eqIdBase + p.1, dsId, strAt (normCols df) p.2 "Equipment Name",
      strAt (normCols df) p.2 "Type", numAt (normCols df) p.2 "Flowrate",
      numAt (normCols df) p.2 "Pressure",
      numAt (normCols df) p.2 "Temperature"⟩ : Equipment))

/-- The retention step of upload_csv (views.py lines 141-145): keep only
the 5 most recently uploaded datasets of this user; a deleted dataset's
equipment rows cascade (Equipment.dataset is on_delete=CASCADE).  Also
returns the deleted primary keys. -/
def pruneUserDatasets (db2 : DataDB) (uid : Nat) : DataDB × List Nat :=
  let userDs := sortDatasetsDesc
    (db2.datasets.filter (fun d => decide (d.userId = uid)))
  let deletedIds := (userDs.drop 5).map (fun d => d.id)
  (⟨db2.datasets.filter (fun d => decide (¬ d.id ∈ deletedIds)),
    db2.equipment.filter (fun e => decide (¬ e.datasetId ∈ deletedIds))⟩,
   deletedIds)

/-- The upload_csv view (views.py lines 43-161) after file-serializer
validation: normalize and rename columns, coerce the numeric columns and
drop unparsable rows, compute the summary, store one Dataset and one
Equipment row per surviving row, then delete every dataset of this user
beyond the 5 most recently uploaded.  `dsId` and `eqIdBase` are the
primary keys the database assigns and `now` the upload timestamp. -/
def upload_csv (db : DataDB) (uid : Nat) (fileName : String) (df : DF)
    (now dsId eqIdBase : Nat) : DataDB × UploadResp :=
  let cols1 := df.cols.map (fun c => trimStr c)
  let missing := missingColumns cols1
  if missing.isEmpty then
    if (validRows df).isEmpty then (db, .noValidRows)
    else
      let ds := mkDatasetRecord df uid fileName now dsId
      let db2 : DataDB :=
        ⟨db.datasets ++ [ds], db.equipment ++ newEquipRecords df dsId eqIdBase⟩
      ((pruneUserDatasets db2 uid).1,
       .created dsId ds.total_equipment ds.avg_flowrate ds.avg_pressure
         ds.avg_temperature ds.type_distribution)
  else
    (db, .missingCols missing cols1)

/-- `Dataset.objects.get(id=dataset_id, user=request.user)` as used by
get_dataset, delete_dataset and generate_report. -/
def findDataset (db : DataDB) (uid did : Nat) : Option Dataset :=
  db.datasets.find? (fun d => decide (d.id = did ∧ d.userId = uid))

/-- DatasetDetailSerializer output: the dataset with its equipment rows. -/
structure DatasetDetail where
  ds : Dataset
  equipment : List Equipment
  deriving Repr, DecidableEq

/-- Equipment rows of a dataset under the related manager's ordering. -/
def datasetEquipment (db : DataDB) (d : Dataset) : List Equipment :=
  sortEquipByName (db.equipment.filter (fun e => decide (e.datasetId = d.id)))

/-- The get_dataset view (views.py lines 185-196). -/
def get_dataset (db : DataDB) (uid did : Nat) :
    Except HttpResp DatasetDetail :=
  match findDataset db uid did with
  | some d => .ok ⟨d, datasetEquipment db d⟩
  | none => .error ⟨404, "Dataset not found"⟩

/-- The delete_dataset view (views.py lines 199-212): the dataset row and,
by cascade, its equipment rows are removed. -/
def delete_dataset (db : DataDB) (uid did : Nat) : DataDB × HttpResp :=
  match findDataset db uid did with
  | some d =>
      (⟨db.datasets.filter (fun x => decide (¬ x.id = d.id)),
        db.equipment.filter (fun e => decide (¬ e.datasetId = d.id))⟩,
       ⟨200, "Dataset deleted successfully"⟩)
  | none => (db, ⟨404, "Dataset not found"⟩)

/-- The get_history view (views.py lines 173-182): the 5 most recent
datasets of the requesting user. -/
def get_history (db : DataDB) (uid : Nat) : List Dataset :=
  (sortDatasetsDesc (db.datasets.filter (fun d => decide (d.userId = uid)))).take 5

/-- Pad a remainder below 100 to two decimal digits. -/
def pad2 (k : Nat) : String :=
  if k < 10 then "0" ++ toString k else toString k

/-- Python `f'{x:.2f}'` on a nonnegative rational. -/
def fmt2abs (q : ℚ) : String :=
  let n := (roundHalfEven (q * 100)).toNat
  toString (n / 100) ++ "." ++ pad2 (n % 100)

/-- Python `f'{x:.2f}'`: fixed-point formatting with two decimal places. -/
def fmt2 (q : ℚ) : String :=
  if q < 0 then "-" ++ fmt2abs (-q) else fmt2abs q

/-- `eq.name[:20] if len(eq.name) > 20 else eq.name` (views.py line 318). -/
def truncName (s : String) : String :=
  if 20 < s.length then ⟨s.data.take 20⟩ else s

/-- The PDF report reduced to its data: the response headers and the three
tables the template fills in (views.py lines 231-348). -/
structure Report where
  contentType : String
  contentDisposition : String
  summaryTable : List (List String)
  typeTable : List (List String)
  equipmentTable : List (List String)
  deriving Repr, DecidableEq

/-- The generate_report view (views.py lines 215-348): after the ownership
check it builds an application/pdf attachment whose tables carry the stored
summary values (averages formatted with two decimals), the stored type
distribution, and the first 50 equipment rows with names cut to 20
characters. -/
def generate_report (db : DataDB) (uid did : Nat) :
    Except HttpResp Report :=
  match findDataset db uid did with
  | none => .error ⟨404, "Dataset not found"⟩
  | some d =>
      .ok
        { contentType := "application/pdf"
          contentDisposition :=
            "attachment; filename=\"report_" ++ toString d.id ++ ".pdf\""
          summaryTable :=
            [["Metric", "Value"],
             ["Total Equipment", toString d.total_equipment],
             ["Average Flowrate", fmt2 d.avg_flowrate],
             ["Average Pressure", fmt2 d.avg_pressure],
             ["Average Temperature", fmt2 d.avg_temperature]]
          typeTable :=
            ["Equipment Type", "Count"] ::
              d.type_distribution.map (fun p => [p.1, toString p.2])
          equipmentTable :=
            ["Name", "Type", "Flowrate", "Pressure", "Temperature"] ::
              ((datasetEquipment db d).take 50).map (fun e =>
                [truncName e.name, e.equipment_type, fmt2 e.flowrate,
                 fmt2 e.pressure, fmt2 e.temperature]) }

/-- The get_latest_summary view (views.py lines 351-366):
`Dataset.objects.first()` under the model ordering ['-uploaded_at'].  The
view carries no user filter (and no permission class), so the result does
not depend on who asks. -/
def get_latest_summary (db : DataDB) : Except HttpResp DatasetDetail :=
  match (sortDatasetsDesc db.datasets).head? with
  | some d => .ok ⟨d, datasetEquipment db d⟩
  | none => .error ⟨404, "No datasets available"⟩

/-! ## Invariant vocabulary -/

/-- The unused OTP rows of one (email, otp_type) pair. -/
def unusedFor (db : List OtpRow) (e t : String) : List OtpRow :=
  db.filter (fun r => decide (r.email = e ∧ r.otp_type = t ∧
    r.is_used = false))

/-- At most one unused OTP row exists per (email, otp_type) pair. -/
def otpInvariant (db : List OtpRow) : Prop :=
  ∀ e t, (unusedFor db e t).length ≤ 1

/-- Run a sequence of authentication endpoint invocations. -/
def authRun (s0 : AuthState) (ops : List AuthOp) : AuthState :=
  ops.foldl (fun s op => (authStep s op).1) s0

/-! ## Helper lemmas -/

theorem latestStep_foldl_mem : ∀ (l : List OtpRow) (acc : Option OtpRow)
    (r : OtpRow), l.foldl latestStep acc = some r → r ∈ l ∨ acc = some r := by
  intro l
  induction l with
  | nil => intro acc r h; exact Or.inr h
  | cons x xs ih =>
      intro acc r h
      simp only [List.foldl_cons] at h
      rcases ih (latestStep acc x) r h with h1 | h2
      · exact Or.inl (List.mem_cons_of_mem _ h1)
      · cases acc with
        | none =>
            simp only [latestStep, Option.some.injEq] at h2
            exact Or.inl (h2 ▸ List.mem_cons_self x xs)
        | some m =>
            simp only [latestStep] at h2
            by_cases hc : m.created_at < x.created_at
            · rw [if_pos hc] at h2
              injection h2 with h2
              exact Or.inl (h2 ▸ List.mem_cons_self x xs)
            · rw [if_neg hc] at h2
              exact Or.inr h2

theorem latestByCreated_mem {l : List OtpRow} {r : OtpRow}
    (h : latestByCreated l = some r) : r ∈ l := by
  rcases latestStep_foldl_mem l none r h with h1 | h2
  · exact h1
  · exact absurd h2 (by simp)

theorem mem_matchingOtps {db : List OtpRow} {e c t : String} {r : OtpRow} :
    r ∈ matchingOtps db e c t ↔
      r ∈ db ∧ r.email = e ∧ r.otp_code = c ∧ r.otp_type = t ∧
        r.is_used = false := by
  simp [matchingOtps, List.mem_filter]

theorem verify_otp_ok_inv {db : List OtpRow} {e c t : String} {now : Nat}
    {r : OtpRow} (h : verify_otp db e c t now = .ok r) :
    r ∈ db ∧ r.email = e ∧ r.otp_code = c ∧ r.otp_type = t ∧
      r.is_used = false ∧ now < r.expires_at := by
  unfold verify_otp at h
  cases hm : latestByCreated (matchingOtps db e c t) with
  | none =>
      simp only [hm] at h
      exact absurd h (fun hc => VerifyOut.noConfusion hc)
  | some m =>
      simp only [hm] at h
      by_cases hv : otpIsValid m now = true
      · rw [if_pos hv] at h
        injection h with h'
        subst h'
        have hmem := mem_matchingOtps.1 (latestByCreated_mem hm)
        simp only [otpIsValid, decide_eq_true_eq] at hv
        exact ⟨hmem.1, hmem.2.1, hmem.2.2.1, hmem.2.2.2.1, hv.1, hv.2⟩
      · rw [if_neg hv] at h
        exact absurd h (fun hc => VerifyOut.noConfusion hc)

theorem mem_mark_as_used_id {db : List OtpRow} {i : Nat} {x : OtpRow}
    (hx : x ∈ mark_as_used db i) (hid : x.id = i) : x.is_used = true := by
  simp only [mark_as_used, List.mem_map] at hx
  obtain ⟨y, _, hy⟩ := hx
  by_cases hyi : y.id = i
  · rw [if_pos hyi] at hy; rw [← hy]
  · rw [if_neg hyi] at hy; rw [← hy] at hid; exact absurd hid hyi

theorem findDataset_some {db : DataDB} {uid did : Nat} {d : Dataset}
    (h : findDataset db uid did = some d) :
    d ∈ db.datasets ∧ d.id = did ∧ d.userId = uid := by
  have hp := List.find?_some h
  have hm := List.mem_of_find?_eq_some h
  simp only [decide_eq_true_eq] at hp
  exact ⟨hm, hp.1, hp.2⟩

theorem findDataset_none {db : DataDB} {uid did : Nat}
    (h : ¬ ∃ d ∈ db.datasets, d.id = did ∧ d.userId = uid) :
    findDataset db uid did = none := by
  rw [findDataset, List.find?_eq_none]
  intro d hd
  simp only [decide_eq_true_eq]
  intro hc
  exact h ⟨d, hd, hc⟩

theorem truncName_length_le (s : String) : (truncName s).length ≤ 20 := by
  unfold truncName
  split
  · show (s.1.take 20).length ≤ 20
    rw [List.length_take]
    exact min_le_left _ _
  · next h => exact Nat.le_of_not_lt h

/-! ## Claim theorems -/

/-- C9: the password-reset request endpoint answers HTTP 200 with the same
generic message for every state of the user table, every OTP code drawn,
every timestamp and every email-send outcome, whenever the submitted email
is syntactically valid — so the response reveals neither account existence
nor the send result. -/
theorem reset_request_uniform_response :
    ∀ (s : AuthState) (email otp_code : String) (now : Nat) (sendOk : Bool),
      (request_password_reset s email true otp_code now sendOk).2 =
        ⟨200, genericResetMessage⟩ := by
  intro s email otp_code now sendOk
  unfold request_password_reset
  simp only [if_true]
  cases h : s.users.find? (fun u => iexact u.email (normEmail email) && u.is_active) <;>
    simp [h]

/-- C3: a generated OTP row expires exactly OTP_EXPIRY_MINUTES (= 10)
minutes after its creation time, and verifying an OTP whose expiry is not
strictly in the future yields the error
'OTP has expired. Please request a new one.' rather than success. -/
theorem otp_expiry :
    (∀ (db : List OtpRow) (e t c : String) (now i : Nat),
      ((generate_otp db e t c now i).2).expires_at =
        ((generate_otp db e t c now i).2).created_at + 60 * OTP_EXPIRY_MINUTES ∧
      ((generate_otp db e t c now i).2).created_at = now ∧
      OTP_EXPIRY_MINUTES = 10) ∧
    (∀ (db : List OtpRow) (e c t : String) (now : Nat) (r : OtpRow),
      latestByCreated (matchingOtps db e c t) = some r →
      r.expires_at ≤ now →
      verify_otp db e c t now =
        .err "OTP has expired. Please request a new one.") := by
  constructor
  · intro db e t c now i
    exact ⟨rfl, rfl, rfl⟩
  · intro db e c t now r hm hexp
    unfold verify_otp
    simp only [hm]
    rw [if_neg]
    simp only [otpIsValid, decide_eq_true_eq, not_and]
    intro _
    exact Nat.not_lt.2 hexp

/-- C3 witness: instantiating both parts at a concrete store containing an
expired OTP row. -/
theorem otp_expiry_witness :
    ((generate_otp [] "a@b.com" "signup" "123456" 40 1).2).expires_at =
      ((generate_otp [] "a@b.com" "signup" "123456" 40 1).2).created_at +
        60 * OTP_EXPIRY_MINUTES ∧
    verify_otp [⟨1, "a@b.com", "123456", "signup", 600, false, 0⟩]
        "a@b.com" "123456" "signup" 600 =
      .err "OTP has expired. Please request a new one." := by
  constructor
  · exact (otp_expiry.1 [] "a@b.com" "signup" "123456" 40 1).1
  · exact otp_expiry.2 [⟨1, "a@b.com", "123456", "signup", 600, false, 0⟩]
      "a@b.com" "123456" "signup" 600 ⟨1, "a@b.com", "123456", "signup", 600, false, 0⟩
      (by decide) (by decide)

/-- C1 (amended): the dataset-detail, dataset-delete and report-generation
operations succeed only on a dataset owned by the requesting user and
answer 404 'Dataset not found' otherwise.  (The original claim's further
consequence — that no operation reads another user's rows — fails because
of get_latest_summary; see the counterexample.) -/
theorem dataset_ops_owner_only :
    (∀ (db : DataDB) (uid did : Nat) (dd : DatasetDetail),
      get_dataset db uid did = .ok dd →
      dd.ds ∈ db.datasets ∧ dd.ds.id = did ∧ dd.ds.userId = uid) ∧
    (∀ (db : DataDB) (uid did : Nat),
      (delete_dataset db uid did).2.status = 200 →
      ∃ d ∈ db.datasets, d.id = did ∧ d.userId = uid) ∧
    (∀ (db : DataDB) (uid did : Nat) (rpt : Report),
      generate_report db uid did = .ok rpt →
      ∃ d ∈ db.datasets, d.id = did ∧ d.userId = uid) ∧
    (∀ (db : DataDB) (uid did : Nat),
      (¬ ∃ d ∈ db.datasets, d.id = did ∧ d.userId = uid) →
      get_dataset db uid did = .error ⟨404, "Dataset not found"⟩ ∧
      delete_dataset db uid did = (db, ⟨404, "Dataset not found"⟩) ∧
      generate_report db uid did = .error ⟨404, "Dataset not found"⟩) := by
  refine ⟨?_, ?_, ?_, ?_⟩
  · intro db uid did dd h
    unfold get_dataset at h
    cases hf : findDataset db uid did with
    | none => simp only [hf] at h; exact absurd h (fun hc => Except.noConfusion hc)
    | some d =>
        simp only [hf] at h
        injection h with h'
        have := findDataset_some hf
        rw [← h']
        exact this
  · intro db uid did h
    unfold delete_dataset at h
    cases hf : findDataset db uid did with
    | none => simp only [hf] at h; exact absurd h (by decide)
    | some d =>
        have := findDataset_some hf
        exact ⟨d, this.1, this.2.1, this.2.2⟩
  · intro db uid did rpt h
    unfold generate_report at h
    cases hf : findDataset db uid did with
    | none => simp only [hf] at h; exact absurd h (fun hc => Except.noConfusion hc)
    | some d =>
        have := findDataset_some hf
        exact ⟨d, this.1, this.2.1, this.2.2⟩
  · intro db uid did h
    have hf := findDataset_none h
    refine ⟨?_, ?_, ?_⟩
    · unfold get_dataset; simp only [hf]
    · unfold delete_dataset; simp only [hf]
    · unfold generate_report; simp only [hf]

/-- C1 witness: the owner-check consequences at a concrete store. -/
theorem dataset_ops_owner_only_witness :
    ((⟨⟨1, 1, "a.csv", 100, 1, 1, 1, 1, [("Pump", 1)]⟩, []⟩ : DatasetDetail).ds ∈
      (⟨[⟨1, 1, "a.csv", 100, 1, 1, 1, 1, [("Pump", 1)]⟩], []⟩ : DataDB).datasets) ∧
    get_dataset ⟨[⟨1, 1, "a.csv", 100, 1, 1, 1, 1, [("Pump", 1)]⟩], []⟩ 2 1 =
      .error ⟨404, "Dataset not found"⟩ := by
  constructor
  · exact (dataset_ops_owner_only.1
      ⟨[⟨1, 1, "a.csv", 100, 1, 1, 1, 1, [("Pump", 1)]⟩], []⟩ 1 1
      ⟨⟨1, 1, "a.csv", 100, 1, 1, 1, 1, [("Pump", 1)]⟩, []⟩ rfl).1
  · exact (dataset_ops_owner_only.2.2.2
      ⟨[⟨1, 1, "a.csv", 100, 1, 1, 1, 1, [("Pump", 1)]⟩], []⟩ 2 1
      (by decide)).1

/-- C1 counterexample: the latest-summary operation breaks the claimed
consequence that no operation lets one user read another user's dataset
rows.  In a store whose only dataset (and equipment row) belongs to user 1,
get_latest_summary — which takes no requesting user at all, mirroring the
view's missing user filter and missing permission class — returns that
dataset's full detail, so any other requester (e.g. user 2) reads user 1's
rows. -/
theorem latest_summary_cross_user_leak :
    get_latest_summary ⟨[⟨1, 1, "a.csv", 100, 1, 1, 1, 1, [("Pump", 1)]⟩],
        [⟨1, 1, "P1", "Pump", 1, 1, 1⟩]⟩ =
      .ok ⟨⟨1, 1, "a.csv", 100, 1, 1, 1, 1, [("Pump", 1)]⟩,
           [⟨1, 1, "P1", "Pump", 1, 1, 1⟩]⟩ ∧
    (⟨1, 1, "a.csv", 100, 1, 1, 1, 1, [("Pump", 1)]⟩ : Dataset).userId = 1 ∧
    (1 : Nat) ≠ 2 := by
  refine ⟨?_, rfl, by decide⟩
  rfl

/-- C7: for a dataset owned by the requesting user, report generation
returns an application/pdf attachment whose summary table holds exactly
the stored statistics (count, and the three averages formatted to two
decimals), whose type table holds exactly the stored type distribution,
and whose equipment table holds at most the first 50 equipment records
with every name cut to at most 20 characters. -/
theorem report_template_content :
    ∀ (db : DataDB) (uid did : Nat) (d : Dataset),
      findDataset db uid did = some d →
      generate_report db uid did = .ok
        { contentType := "application/pdf"
          contentDisposition :=
            "attachment; filename=\"report_" ++ toString d.id ++ ".pdf\""
          summaryTable :=
            [["Metric", "Value"],
             ["Total Equipment", toString d.total_equipment],
             ["Average Flowrate", fmt2 d.avg_flowrate],
             ["Average Pressure", fmt2 d.avg_pressure],
             ["Average Temperature", fmt2 d.avg_temperature]]
          typeTable :=
            ["Equipment Type", "Count"] ::
              d.type_distribution.map (fun p => [p.1, toString p.2])
          equipmentTable :=
            ["Name", "Type", "Flowrate", "Pressure", "Temperature"] ::
              ((datasetEquipment db d).take 50).map (fun e =>
                [truncName e.name, e.equipment_type, fmt2 e.flowrate,
                 fmt2 e.pressure, fmt2 e.temperature]) } ∧
      (∀ rpt : Report, generate_report db uid did = .ok rpt →
        rpt.equipmentTable.length ≤ 51 ∧
        ∀ row ∈ rpt.equipmentTable.drop 1, ∀ nm ∈ row.head?,
          nm.length ≤ 20) := by
  intro db uid did d hf
  constructor
  · unfold generate_report
    simp only [hf]
  · intro rpt hr
    unfold generate_report at hr
    simp only [hf] at hr
    injection hr with hr
    subst hr
    constructor
    · simp only [List.length_cons, List.length_map]
      have : ((datasetEquipment db d).take 50).length ≤ 50 := by
        rw [List.length_take]
        exact min_le_left _ _
      omega
    · intro row hrow nm hnm
      simp only [List.drop_one, List.tail_cons, List.mem_map] at hrow
      obtain ⟨e, _, he⟩ := hrow
      rw [← he] at hnm
      simp only [List.head?_cons, Option.mem_def, Option.some.injEq] at hnm
      rw [← hnm]
      exact truncName_length_le e.name

/-- C7 witness: a concrete owned dataset with one equipment row. -/
theorem report_template_content_witness :
    generate_report ⟨[⟨1, 1, "a.csv", 100, 2, (5 : ℚ)/2, 1, 1, [("Pump", 2)]⟩],
        [⟨1, 1, "P1", "Pump", 10, 2, 100⟩]⟩ 1 1 =
      .ok
        { contentType := "application/pdf"
          contentDisposition := "attachment; filename=\"report_1.pdf\""
          summaryTable :=
            [["Metric", "Value"],
             ["Total Equipment", "2"],
             ["Average Flowrate", "2.50"],
             ["Average Pressure", "1.00"],
             ["Average Temperature", "1.00"]]
          typeTable := [["Equipment Type", "Count"], ["Pump", "2"]]
          equipmentTable :=
            [["Name", "Type", "Flowrate", "Pressure", "Temperature"],
             ["P1", "Pump", "10.00", "2.00", "100.00"]] } := by
  have h := (report_template_content
    ⟨[⟨1, 1, "a.csv", 100, 2, (5 : ℚ)/2, 1, 1, [("Pump", 2)]⟩],
     [⟨1, 1, "P1", "Pump", 10, 2, 100⟩]⟩ 1 1
    ⟨1, 1, "a.csv", 100, 2, (5 : ℚ)/2, 1, 1, [("Pump", 2)]⟩ rfl).1
  rw [h]
  congr 1
  norm_num [datasetEquipment, sortEquipByName, List.insertionSort,
    List.orderedInsert, truncName, fmt2, fmt2abs, roundHalfEven, floorQ, pad2]
  decide

/-- C2: OTP codes are single-use.  Verification only ever matches rows with
is_used = false; after a row is marked used, no verification can return
that row again; and both the successful signup-verification flow and the
successful password-reset flow mark the matched OTP row as used in the
resulting store. -/
theorem otp_single_use :
    (∀ (db : List OtpRow) (e c t : String) (now : Nat) (r : OtpRow),
      verify_otp db e c t now = .ok r → r.is_used = false) ∧
    (∀ (db : List OtpRow) (i : Nat) (e c t : String) (now : Nat)
        (r' : OtpRow),
      verify_otp (mark_as_used db i) e c t now = .ok r' → r'.id ≠ i) ∧
    (∀ (s : AuthState) (email otp : String) (now : Nat),
      ((verify_signup_otp s email otp now).2).status = 200 →
      ∃ r, verify_otp s.otps (normEmail email) otp "signup" now = .ok r ∧
        (verify_signup_otp s email otp now).1.otps =
          mark_as_used s.otps r.id ∧
        ∀ x ∈ (verify_signup_otp s email otp now).1.otps,
          x.id = r.id → x.is_used = true) ∧
    (∀ (s : AuthState) (email otp np cf : String) (now : Nat),
      ((reset_password s email otp np cf now).2).status = 200 →
      ∃ r, verify_otp s.otps (normEmail email) otp "password_reset" now =
          .ok r ∧
        (reset_password s email otp np cf now).1.otps =
          mark_as_used s.otps r.id ∧
        ∀ x ∈ (reset_password s email otp np cf now).1.otps,
          x.id = r.id → x.is_used = true) := by
  refine ⟨?_, ?_, ?_, ?_⟩
  · intro db e c t now r h
    exact (verify_otp_ok_inv h).2.2.2.2.1
  · intro db i e c t now r' h hid
    have hinv := verify_otp_ok_inv h
    have := mem_mark_as_used_id hinv.1 hid
    rw [hinv.2.2.2.2.1] at this
    exact Bool.noConfusion this
  · intro s email otp now h200
    by_cases hser : (decide (otp.length = 6) && otp.data.all Char.isDigit) = true
    · cases hv : verify_otp s.otps (normEmail email) otp "signup" now with
      | err m =>
          exfalso
          unfold verify_signup_otp at h200
          rw [if_pos hser] at h200
          simp [hv] at h200
      | ok r =>
          cases hf : s.users.find?
              (fun u => iexact u.email (normEmail email)) with
          | none =>
              exfalso
              unfold verify_signup_otp at h200
              rw [if_pos hser] at h200
              simp [hv, hf] at h200
          | some u =>
              refine ⟨r, rfl, ?_⟩
              have hstate : (verify_signup_otp s email otp now).1.otps =
                  mark_as_used s.otps r.id := by
                unfold verify_signup_otp
                rw [if_pos hser]
                simp only [hv, hf]
              refine ⟨hstate, ?_⟩
              intro x hx hid
              rw [hstate] at hx
              exact mem_mark_as_used_id hx hid
    · exfalso
      unfold verify_signup_otp at h200
      rw [if_neg hser] at h200
      simp at h200
  · intro s email otp np cf now h200
    by_cases hser : (decide (otp.length = 6) && otp.data.all Char.isDigit &&
        decide (8 ≤ np.length) && decide (np = cf)) = true
    · cases hv : verify_otp s.otps (normEmail email) otp
          "password_reset" now with
      | err m =>
          exfalso
          unfold reset_password at h200
          rw [if_pos hser] at h200
          simp [hv] at h200
      | ok r =>
          cases hf : s.users.find?
              (fun u => iexact u.email (normEmail email)) with
          | none =>
              exfalso
              unfold reset_password at h200
              rw [if_pos hser] at h200
              simp [hv, hf] at h200
          | some u =>
              refine ⟨r, rfl, ?_⟩
              have hstate : (reset_password s email otp np cf now).1.otps =
                  mark_as_used s.otps r.id := by
                unfold reset_password
                rw [if_pos hser]
                simp only [hv, hf]
              refine ⟨hstate, ?_⟩
              intro x hx hid
              rw [hstate] at hx
              exact mem_mark_as_used_id hx hid
    · exfalso
      unfold reset_password at h200
      rw [if_neg hser] at h200
      simp at h200

/-- C2 witness: a concrete store where each part of the single-use property
fires — a fresh OTP verifies as unused, marking an unrelated row leaves the
match intact but never returns the marked id, and a concrete signup
verification and password reset both run to completion. -/
theorem otp_single_use_witness :
    ((⟨1, "a@b.com", "123456", "signup", 600, false, 0⟩ : OtpRow).is_used
      = false) ∧
    ((1 : Nat) ≠ 7) ∧
    (((verify_signup_otp
        ⟨[⟨"a@b.com", "a@b.com", "secretpw", "", "", false⟩],
         [⟨1, "a@b.com", "123456", "signup", 600, false, 0⟩], 2⟩
        "a@b.com" "123456" 10).2).status = 200) ∧
    (((reset_password
        ⟨[⟨"a@b.com", "a@b.com", "oldpassword", "", "", true⟩],
         [⟨1, "a@b.com", "654321", "password_reset", 600, false, 0⟩], 2⟩
        "a@b.com" "654321" "newpassword" "newpassword" 10).2).status =
      200) := by
  refine ⟨?_, ?_, ?_, ?_⟩
  · exact otp_single_use.1
      [⟨1, "a@b.com", "123456", "signup", 600, false, 0⟩]
      "a@b.com" "123456" "signup" 10
      ⟨1, "a@b.com", "123456", "signup", 600, false, 0⟩ rfl
  · exact otp_single_use.2.1
      [⟨1, "a@b.com", "123456", "signup", 600, false, 0⟩,
       ⟨7, "z@b.com", "999999", "signup", 600, false, 0⟩]
      7 "a@b.com" "123456" "signup" 10
      ⟨1, "a@b.com", "123456", "signup", 600, false, 0⟩ rfl
  · have h := otp_single_use.2.2.1
      ⟨[⟨"a@b.com", "a@b.com", "secretpw", "", "", false⟩],
       [⟨1, "a@b.com", "123456", "signup", 600, false, 0⟩], 2⟩
      "a@b.com" "123456" 10 rfl
    exact rfl
  · have h := otp_single_use.2.2.2
      ⟨[⟨"a@b.com", "a@b.com", "oldpassword", "", "", true⟩],
       [⟨1, "a@b.com", "654321", "password_reset", 600, false, 0⟩], 2⟩
      "a@b.com" "654321" "newpassword" "newpassword" 10 rfl
    exact rfl

theorem mem_updateFirst {α : Type} {p : α → Bool} {f : α → α} :
    ∀ {l : List α} {x : α}, x ∈ updateFirst p f l →
      x ∈ l ∨ ∃ y ∈ l, x = f y := by
  intro l
  induction l with
  | nil => intro x hx; simp [updateFirst] at hx
  | cons a as ih =>
      intro x hx
      simp only [updateFirst] at hx
      by_cases hp : p a
      · rw [if_pos hp] at hx
        rcases List.mem_cons.1 hx with h | h
        · exact Or.inr ⟨a, List.mem_cons_self a as, h⟩
        · exact Or.inl (List.mem_cons_of_mem _ h)
      · rw [if_neg hp] at hx
        rcases List.mem_cons.1 hx with h | h
        · exact Or.inl (h ▸ List.mem_cons_self a as)
        · rcases ih h with h1 | ⟨y, hy, hxy⟩
          · exact Or.inl (List.mem_cons_of_mem _ h1)
          · exact Or.inr ⟨y, List.mem_cons_of_mem _ hy, hxy⟩

/-- C6: unverified accounts cannot log in.  Registration always yields an
inactive user (whether created fresh or re-used); login returns a user only
when that user is active, and answers the dedicated validation error when
the account found by email is inactive; and across every authentication
endpoint, a user that is active after the step was either already active
before it (under the same username) or the step was a successful
signup-OTP verification. -/
theorem signup_gating :
    (∀ (users : List DUser) (email name password : String),
      ((registerCreate users email name password).2).is_active = false) ∧
    (∀ (s : AuthState) (email password : String) (u : DUser),
      login s email password = .ok u → u.is_active = true) ∧
    (∀ (s : AuthState) (email password : String) (u : DUser),
      s.users.find? (fun v => iexact v.email (normEmail email)) = some u →
      u.is_active = false →
      login s email password =
        .err ⟨400, "Please verify your email address before logging in."⟩) ∧
    (∀ (s : AuthState) (op : AuthOp) (u' : DUser),
      u' ∈ (authStep s op).1.users → u'.is_active = true →
      (∃ u ∈ s.users, u.username = u'.username ∧ u.is_active = true) ∨
      (∃ e o n, op = .verifySignup e o n ∧
        ((authStep s op).2).status = 200)) := by
  have hreg : ∀ (users : List DUser) (email name password : String)
      (u' : DUser), u' ∈ (registerCreate users email name password).1 →
      u'.is_active = true →
      ∃ u ∈ users, u.username = u'.username ∧ u.is_active = true := by
    intro users email name password u' hmem hact
    unfold registerCreate at hmem
    cases hf : users.find? (fun u => iexact u.email (normEmail email)) with
    | none =>
        simp only [hf] at hmem
        rcases List.mem_append.1 hmem with h | h
        · exact ⟨u', h, rfl, hact⟩
        · simp only [List.mem_singleton] at h
          rw [h] at hact
          simp at hact
    | some u0 =>
        simp only [hf] at hmem
        by_cases h0 : u0.is_active = false
        · rw [if_pos h0] at hmem
          rcases mem_updateFirst hmem with h | ⟨y, hy, hxy⟩
          · exact ⟨u', h, rfl, hact⟩
          · refine ⟨y, hy, ?_, ?_⟩
            · rw [hxy]
            · rw [hxy] at hact; exact hact
        · rw [if_neg h0] at hmem
          rcases List.mem_append.1 hmem with h | h
          · exact ⟨u', h, rfl, hact⟩
          · simp only [List.mem_singleton] at h
            rw [h] at hact
            simp at hact
  refine ⟨?_, ?_, ?_, ?_⟩
  · intro users email name password
    unfold registerCreate
    cases hf : users.find? (fun u => iexact u.email (normEmail email)) with
    | none => simp [hf]
    | some u0 =>
        by_cases h0 : u0.is_active = false
        · simp [hf, h0]
        · simp [hf, h0]
  · intro s email password u h
    unfold login at h
    cases hf : s.users.find? (fun v => iexact v.email (normEmail email)) with
    | none => simp only [hf] at h; exact absurd h (fun hc => LoginOut.noConfusion hc)
    | some u0 =>
        simp only [hf] at h
        by_cases h0 : u0.is_active = false
        · rw [if_pos h0] at h
          exact absurd h (fun hc => LoginOut.noConfusion hc)
        · rw [if_neg h0] at h
          cases ha : s.users.find? (fun v => decide (v.username = u0.username ∧
              v.password = password ∧ v.is_active = true)) with
          | none =>
              simp only [ha] at h
              exact absurd h (fun hc => LoginOut.noConfusion hc)
          | some v =>
              simp only [ha] at h
              injection h with h'
              have hp := List.find?_some ha
              simp only [decide_eq_true_eq] at hp
              rw [← h']
              exact hp.2.2
  · intro s email password u hf h0
    unfold login
    simp only [hf]
    rw [if_pos h0]
  · intro s op u' hmem hact
    cases op with
    | register e p c n code now send =>
        simp only [authStep] at hmem ⊢
        unfold register at hmem
        by_cases hval : registerValidate s.users e p c = true
        · rw [if_pos hval] at hmem
          cases send with
          | false =>
              simp only [Bool.false_eq_true, if_false] at hmem
              exact Or.inl (hreg s.users e n p u' hmem hact)
          | true =>
              simp only [if_true] at hmem
              exact Or.inl (hreg s.users e n p u' hmem hact)
        · rw [if_neg hval] at hmem
          exact Or.inl ⟨u', hmem, rfl, hact⟩
    | verifySignup e o n =>
        simp only [authStep] at hmem ⊢
        unfold verify_signup_otp at hmem ⊢
        by_cases hser : (decide (o.length = 6) && o.data.all Char.isDigit) = true
        · rw [if_pos hser] at hmem ⊢
          cases hv : verify_otp s.otps (normEmail e) o "signup" n with
          | err m =>
              simp only [hv] at hmem
              exact Or.inl ⟨u', hmem, rfl, hact⟩
          | ok r =>
              cases hfind : s.users.find? (fun u => iexact u.email (normEmail e)) with
              | none =>
                  simp only [hv, hfind] at hmem
                  exact Or.inl ⟨u', hmem, rfl, hact⟩
              | some u0 =>
                  refine Or.inr ⟨e, o, n, rfl, ?_⟩
                  simp only [hv, hfind]
        · rw [if_neg hser] at hmem
          exact Or.inl ⟨u', hmem, rfl, hact⟩
    | loginOp e p =>
        simp only [authStep] at hmem
        cases hl : login s e p with
        | ok u => simp only [hl] at hmem; exact Or.inl ⟨u', hmem, rfl, hact⟩
        | err r => simp only [hl] at hmem; exact Or.inl ⟨u', hmem, rfl, hact⟩
    | requestReset e v code now send =>
        simp only [authStep] at hmem
        unfold request_password_reset at hmem
        by_cases hv : v = true
        · rw [if_pos hv] at hmem
          cases hf : s.users.find?
              (fun u => iexact u.email (normEmail e) && u.is_active) with
          | none => simp only [hf] at hmem; exact Or.inl ⟨u', hmem, rfl, hact⟩
          | some u0 => simp only [hf] at hmem; exact Or.inl ⟨u', hmem, rfl, hact⟩
        · rw [if_neg hv] at hmem
          exact Or.inl ⟨u', hmem, rfl, hact⟩
    | verifyReset e o n =>
        simp only [authStep] at hmem
        unfold verify_reset_otp at hmem
        by_cases hser : (decide (o.length = 6) && o.data.all Char.isDigit) = true
        · rw [if_pos hser] at hmem
          cases hv : verify_otp s.otps (normEmail e) o "password_reset" n with
          | err m => simp only [hv] at hmem; exact Or.inl ⟨u', hmem, rfl, hact⟩
          | ok r => simp only [hv] at hmem; exact Or.inl ⟨u', hmem, rfl, hact⟩
        · rw [if_neg hser] at hmem
          exact Or.inl ⟨u', hmem, rfl, hact⟩
    | resetPassword e o np cf n =>
        simp only [authStep] at hmem
        unfold reset_password at hmem
        by_cases hser : (decide (o.length = 6) && o.data.all Char.isDigit &&
            decide (8 ≤ np.length) && decide (np = cf)) = true
        · rw [if_pos hser] at hmem
          cases hv : verify_otp s.otps (normEmail e) o "password_reset" n with
          | err m => simp only [hv] at hmem; exact Or.inl ⟨u', hmem, rfl, hact⟩
          | ok r =>
              cases hf : s.users.find? (fun u => iexact u.email (normEmail e)) with
              | none =>
                  simp only [hv, hf] at hmem
                  exact Or.inl ⟨u', hmem, rfl, hact⟩
              | some u0 =>
                  simp only [hv, hf] at hmem
                  rcases mem_updateFirst hmem with h | ⟨y, hy, hxy⟩
                  · exact Or.inl ⟨u', h, rfl, hact⟩
                  · refine Or.inl ⟨y, hy, ?_, ?_⟩
                    · rw [hxy]
                    · rw [hxy] at hact; exact hact
        · rw [if_neg hser] at hmem
          exact Or.inl ⟨u', hmem, rfl, hact⟩
    | resendOtp e t code n =>
        simp only [authStep] at hmem
        unfold resend_otp at hmem
        by_cases h1 : normEmail e = ""
        · rw [if_pos h1] at hmem
          exact Or.inl ⟨u', hmem, rfl, hact⟩
        · rw [if_neg h1] at hmem
          by_cases h2 : t = "signup"
          · rw [if_pos h2] at hmem
            cases hf : s.users.find?
                (fun u => iexact u.email (normEmail e) && !u.is_active) with
            | none => simp only [hf] at hmem; exact Or.inl ⟨u', hmem, rfl, hact⟩
            | some u0 => simp only [hf] at hmem; exact Or.inl ⟨u', hmem, rfl, hact⟩
          · rw [if_neg h2] at hmem
            by_cases h3 : t = "password_reset"
            · rw [if_pos h3] at hmem
              cases hf : s.users.find?
                  (fun u => iexact u.email (normEmail e) && u.is_active) with
              | none => simp only [hf] at hmem; exact Or.inl ⟨u', hmem, rfl, hact⟩
              | some u0 => simp only [hf] at hmem; exact Or.inl ⟨u', hmem, rfl, hact⟩
            · rw [if_neg h3] at hmem
              exact Or.inl ⟨u', hmem, rfl, hact⟩

/-- C6 witness: a concrete registration stays inactive, an inactive account
gets the verify-first login error, an activated account logs in, and the
only-activation invariant instantiated at a concrete verifySignup step. -/
theorem signup_gating_witness :
    ((registerCreate [] "a@b.com" "" "secretpw").2).is_active = false ∧
    login ⟨[⟨"a@b.com", "a@b.com", "secretpw", "", "", false⟩], [], 1⟩
        "a@b.com" "secretpw" =
      .err ⟨400, "Please verify your email address before logging in."⟩ ∧
    (⟨"a@b.com", "a@b.com", "secretpw", "", "", true⟩ : DUser).is_active
      = true ∧
    ((∃ u ∈ (⟨[⟨"a@b.com", "a@b.com", "secretpw", "", "", false⟩],
          [⟨1, "a@b.com", "123456", "signup", 600, false, 0⟩], 2⟩ :
          AuthState).users,
        u.username = "a@b.com" ∧ u.is_active = true) ∨
      (∃ e o n, (AuthOp.verifySignup "a@b.com" "123456" 10 : AuthOp) =
          .verifySignup e o n ∧
        ((authStep ⟨[⟨"a@b.com", "a@b.com", "secretpw", "", "", false⟩],
            [⟨1, "a@b.com", "123456", "signup", 600, false, 0⟩], 2⟩
            (.verifySignup "a@b.com" "123456" 10)).2).status = 200)) := by
  refine ⟨signup_gating.1 [] "a@b.com" "" "secretpw", ?_, ?_, ?_⟩
  · exact signup_gating.2.2.1
      ⟨[⟨"a@b.com", "a@b.com", "secretpw", "", "", false⟩], [], 1⟩
      "a@b.com" "secretpw"
      ⟨"a@b.com", "a@b.com", "secretpw", "", "", false⟩ (by decide) rfl
  · exact signup_gating.2.1
      ⟨[⟨"a@b.com", "a@b.com", "secretpw", "", "", true⟩], [], 1⟩
      "a@b.com" "secretpw"
      ⟨"a@b.com", "a@b.com", "secretpw", "", "", true⟩ (by decide)
  · exact signup_gating.2.2.2
      ⟨[⟨"a@b.com", "a@b.com", "secretpw", "", "", false⟩],
       [⟨1, "a@b.com", "123456", "signup", 600, false, 0⟩], 2⟩
      (.verifySignup "a@b.com" "123456" 10)
      ⟨"a@b.com", "a@b.com", "secretpw", "", "", true⟩ (by decide) rfl

theorem filter_map_length_le {α : Type} (f : α → α) (p : α → Bool)
    (hp : ∀ a, p (f a) = true → p a = true) (l : List α) :
    ((l.map f).filter p).length ≤ (l.filter p).length := by
  rw [List.filter_map, List.length_map, ← List.countP_eq_length_filter,
    ← List.countP_eq_length_filter]
  exact List.countP_mono_left (fun a _ ha => hp a ha)

theorem unusedFor_mark_le (db : List OtpRow) (i : Nat) (e t : String) :
    (unusedFor (mark_as_used db i) e t).length ≤
      (unusedFor db e t).length := by
  unfold unusedFor mark_as_used
  apply filter_map_length_le
  intro r h
  by_cases hid : r.id = i
  · rw [if_pos hid] at h; simp at h
  · rw [if_neg hid] at h; exact h

theorem unusedFor_generate_self (db : List OtpRow) (e t c : String)
    (now i : Nat) :
    unusedFor (generate_otp db e t c now i).1 e t =
      [(generate_otp db e t c now i).2] := by
  unfold generate_otp unusedFor
  simp only
  rw [List.filter_append]
  have h1 : (db.map (fun r =>
      if r.email = e ∧ r.otp_type = t ∧ r.is_used = false then
        { r with is_used := true } else r)).filter
      (fun r => decide (r.email = e ∧ r.otp_type = t ∧ r.is_used = false))
      = [] := by
    rw [List.filter_eq_nil_iff]
    intro a ha
    rcases List.mem_map.1 ha with ⟨r, _, hr⟩
    by_cases hc : r.email = e ∧ r.otp_type = t ∧ r.is_used = false
    · rw [if_pos hc] at hr
      rw [← hr]
      simp
    · rw [if_neg hc] at hr
      rw [← hr]
      simpa using hc
  rw [h1, List.nil_append]
  simp

theorem unusedFor_generate_other (db : List OtpRow) (e t c : String)
    (now i : Nat) (e' t' : String) (h : ¬ (e' = e ∧ t' = t)) :
    (unusedFor (generate_otp db e t c now i).1 e' t').length ≤
      (unusedFor db e' t').length := by
  unfold generate_otp unusedFor
  simp only
  rw [List.filter_append]
  have hrow : ([(⟨i, e, c, t, now + 60 * OTP_EXPIRY_MINUTES, false,
      now⟩ : OtpRow)].filter
      (fun r => decide (r.email = e' ∧ r.otp_type = t' ∧ r.is_used = false)))
      = [] := by
    rw [List.filter_eq_nil_iff]
    intro a ha
    simp only [List.mem_singleton] at ha
    rw [ha]
    simp only [decide_eq_true_eq, not_and]
    intro he ht
    exact absurd ⟨he.symm, ht.symm⟩ h
  rw [hrow, List.append_nil]
  apply filter_map_length_le
  intro r hr
  by_cases hc : r.email = e ∧ r.otp_type = t ∧ r.is_used = false
  · rw [if_pos hc] at hr; simp at hr
  · rw [if_neg hc] at hr; exact hr

theorem generate_preserves_inv {db : List OtpRow} (e t c : String)
    (now i : Nat) (h : otpInvariant db) :
    otpInvariant (generate_otp db e t c now i).1 := by
  intro e' t'
  by_cases hc : e' = e ∧ t' = t
  · rw [hc.1, hc.2, unusedFor_generate_self]
    simp
  · exact le_trans (unusedFor_generate_other db e t c now i e' t' hc) (h e' t')

theorem mark_preserves_inv {db : List OtpRow} (i : Nat)
    (h : otpInvariant db) : otpInvariant (mark_as_used db i) := by
  intro e' t'
  exact le_trans (unusedFor_mark_le db i e' t') (h e' t')

theorem authStep_preserves_inv (s : AuthState) (op : AuthOp)
    (h : otpInvariant s.otps) : otpInvariant ((authStep s op).1).otps := by
  cases op with
  | register e p c n code now send =>
      simp only [authStep]
      unfold register
      by_cases hval : registerValidate s.users e p c = true
      · rw [if_pos hval]
        cases send with
        | false =>
            simp only [Bool.false_eq_true, if_false]
            exact generate_preserves_inv _ _ _ _ _ h
        | true =>
            simp only [if_true]
            exact generate_preserves_inv _ _ _ _ _ h
      · rw [if_neg hval]; exact h
  | verifySignup e o n =>
      simp only [authStep]
      unfold verify_signup_otp
      by_cases hser : (decide (o.length = 6) && o.data.all Char.isDigit) = true
      · rw [if_pos hser]
        cases hv : verify_otp s.otps (normEmail e) o "signup" n with
        | err m => simp only [hv]; exact h
        | ok r =>
            cases hf : s.users.find? (fun u => iexact u.email (normEmail e)) with
            | none => simp only [hv, hf]; exact h
            | some u0 => simp only [hv, hf]; exact mark_preserves_inv _ h
      · rw [if_neg hser]; exact h
  | loginOp e p =>
      simp only [authStep]
      cases hl : login s e p with
      | ok u => simp only [hl]; exact h
      | err r => simp only [hl]; exact h
  | requestReset e v code now send =>
      simp only [authStep]
      unfold request_password_reset
      by_cases hv : v = true
      · rw [if_pos hv]
        cases hf : s.users.find? (fun u => iexact u.email (normEmail e) && u.is_active) with
        | none => simp only [hf]; exact h
        | some u0 => simp only [hf]; exact generate_preserves_inv _ _ _ _ _ h
      · rw [if_neg hv]; exact h
  | verifyReset e o n =>
      simp only [authStep]
      unfold verify_reset_otp
      by_cases hser : (decide (o.length = 6) && o.data.all Char.isDigit) = true
      · rw [if_pos hser]
        cases hv : verify_otp s.otps (normEmail e) o "password_reset" n with
        | err m => simp only [hv]; exact h
        | ok r => simp only [hv]; exact h
      · rw [if_neg hser]; exact h
  | resetPassword e o np cf n =>
      simp only [authStep]
      unfold reset_password
      by_cases hser : (decide (o.length = 6) && o.data.all Char.isDigit &&
          decide (8 ≤ np.length) && decide (np = cf)) = true
      · rw [if_pos hser]
        cases hv : verify_otp s.otps (normEmail e) o "password_reset" n with
        | err m => simp only [hv]; exact h
        | ok r =>
            cases hf : s.users.find? (fun u => iexact u.email (normEmail e)) with
            | none => simp only [hv, hf]; exact h
            | some u0 => simp only [hv, hf]; exact mark_preserves_inv _ h
      · rw [if_neg hser]; exact h
  | resendOtp e t code n =>
      simp only [authStep]
      unfold resend_otp
      by_cases h1 : normEmail e = ""
      · rw [if_pos h1]; exact h
      · rw [if_neg h1]
        by_cases h2 : t = "signup"
        · rw [if_pos h2]
          cases hf : s.users.find? (fun u => iexact u.email (normEmail e) && !u.is_active) with
          | none => simp only [hf]; exact h
          | some u0 => simp only [hf]; exact generate_preserves_inv _ _ _ _ _ h
        · rw [if_neg h2]
          by_cases h3 : t = "password_reset"
          · rw [if_pos h3]
            cases hf : s.users.find? (fun u => iexact u.email (normEmail e) && u.is_active) with
            | none => simp only [hf]; exact h
            | some u0 => simp only [hf]; exact generate_preserves_inv _ _ _ _ _ h
          · rw [if_neg h3]; exact h

/-- C8: generate_otp invalidates every unused OTP row of its (email, type)
pair before inserting the new row — afterwards that pair's unused rows are
exactly the new row — and since every other endpoint either leaves the OTP
store alone, runs generate_otp, or marks rows used, the at-most-one-unused
invariant is preserved by every authentication endpoint invocation. -/
theorem otp_at_most_one_unused :
    (∀ (db : List OtpRow) (e t c : String) (now i : Nat),
      unusedFor (generate_otp db e t c now i).1 e t =
        [(generate_otp db e t c now i).2]) ∧
    (∀ (s0 : AuthState) (ops : List AuthOp),
      otpInvariant s0.otps → otpInvariant (authRun s0 ops).otps) := by
  constructor
  · exact unusedFor_generate_self
  · intro s0 ops
    induction ops generalizing s0 with
    | nil => intro h; exact h
    | cons op ops ih =>
        intro h
        have : authRun s0 (op :: ops) = authRun ((authStep s0 op).1) ops := by
          simp [authRun]
        rw [this]
        exact ih _ (authStep_preserves_inv s0 op h)

/-- C8 witness: the invariant holds concretely after a register followed by
a password-reset request on an initially empty store. -/
theorem otp_at_most_one_unused_witness :
    unusedFor (generate_otp [] "a@b.com" "signup" "123456" 0 1).1
        "a@b.com" "signup" =
      [(generate_otp [] "a@b.com" "signup" "123456" 0 1).2] ∧
    otpInvariant (authRun ⟨[], [], 1⟩
      [.register "a@b.com" "secretpw" "secretpw" "" "111111" 0 true,
       .requestReset "a@b.com" true "222222" 5 true]).otps := by
  constructor
  · exact otp_at_most_one_unused.1 [] "a@b.com" "signup" "123456" 0 1
  · exact otp_at_most_one_unused.2 ⟨[], [], 1⟩
      [.register "a@b.com" "secretpw" "secretpw" "" "111111" 0 true,
       .requestReset "a@b.com" true "222222" 5 true]
      (by intro e t; simp [unusedFor])

theorem find?_first {α : Type} (p : α → Bool) :
    ∀ (l : List α) (a : α), l.find? p = some a →
      a ∈ l ∧ p a = true ∧
        ∃ pre post, l = pre ++ a :: post ∧ ∀ w ∈ pre, p w = false := by
  intro l
  induction l with
  | nil => intro a h; exact absurd h (by simp)
  | cons x xs ih =>
      intro a h
      by_cases hx : p x = true
      · rw [List.find?_cons_of_pos _ hx] at h
        injection h with h'
        subst h'
        exact ⟨List.mem_cons_self _ _, hx, [], xs, rfl, by simp⟩
      · rw [List.find?_cons_of_neg _ hx] at h
        obtain ⟨hmem, hp, pre, post, heq, hpre⟩ := ih a h
        refine ⟨List.mem_cons_of_mem _ hmem, hp, x :: pre, post, ?_, ?_⟩
        · rw [heq]; rfl
        · intro w hw
          rcases List.mem_cons.1 hw with h1 | h1
          · rw [h1]; exact Bool.eq_false_iff.2 hx
          · exact hpre w h1

theorem find?_of_unique {α : Type} (p : α → Bool) :
    ∀ (l : List α) (a : α), a ∈ l → p a = true →
      (∀ x ∈ l, p x = true → x = a) → l.find? p = some a := by
  intro l
  induction l with
  | nil => intro a ha; exact absurd ha (by simp)
  | cons x xs ih =>
      intro a ha hp huniq
      by_cases hx : p x = true
      · rw [List.find?_cons_of_pos _ hx]
        rw [huniq x (List.mem_cons_self x xs) hx]
      · rw [List.find?_cons_of_neg _ hx]
        rcases List.mem_cons.1 ha with h1 | h1
        · rw [h1] at hp; exact absurd hp hx
        · exact ih a h1 hp (fun y hy => huniq y (List.mem_cons_of_mem _ hy))

theorem variations_disjoint :
    ∀ s1 ∈ requiredColumns, ∀ s2 ∈ requiredColumns, ∀ v : String,
      v ∈ variationsOf s1 → v ∈ variationsOf s2 → s1 = s2 := by
  decide

/-- C5: CSV column normalization.  A required column is missing exactly
when no accepted name variation occurs among the stripped column names;
when something is missing, the upload answers with the missing list (in
required-column order) and the stripped header, storing nothing; the
matched variation is always the first variation present in the header; and
when nothing is missing every standard name occurs in the renamed header. -/
theorem column_normalization :
    (∀ cols : List String, missingColumns cols = [] ↔
      ∀ std ∈ requiredColumns, ∃ v ∈ variationsOf std, v ∈ cols) ∧
    (∀ (db : DataDB) (uid : Nat) (fn : String) (df : DF) (now i j : Nat),
      missingColumns (df.cols.map (fun c => trimStr c)) ≠ [] →
      upload_csv db uid fn df now i j =
        (db, .missingCols (missingColumns (df.cols.map (fun c => trimStr c)))
          (df.cols.map (fun c => trimStr c)))) ∧
    (∀ (cols : List String) (std v : String),
      actualColumn cols std = some v →
      v ∈ cols ∧ ∃ pre post, variationsOf std = pre ++ v :: post ∧
        ∀ w ∈ pre, ¬ w ∈ cols) ∧
    (∀ cols : List String, missingColumns cols = [] →
      ∀ std ∈ requiredColumns, std ∈ renamedCols cols) := by
  have hact : ∀ (cols : List String) (std v : String),
      actualColumn cols std = some v → v ∈ variationsOf std ∧ v ∈ cols := by
    intro cols std v h
    obtain ⟨hmem, hp, _⟩ := find?_first _ _ _ h
    simp only [List.elem_iff] at hp
    exact ⟨hmem, hp⟩
  refine ⟨?_, ?_, ?_, ?_⟩
  · intro cols
    unfold missingColumns
    rw [List.filter_eq_nil_iff]
    constructor
    · intro h std hstd
      have := h std hstd
      simp only [Option.isNone_iff_eq_none, decide_eq_true_eq] at this
      cases hac : actualColumn cols std with
      | none => exact absurd hac this
      | some v =>
          have hv := hact cols std v hac
          exact ⟨v, hv.1, hv.2⟩
    · intro h std hstd
      obtain ⟨v, hv1, hv2⟩ := h std hstd
      simp only [Option.isNone_iff_eq_none, decide_eq_true_eq]
      intro hnone
      unfold actualColumn at hnone
      rw [List.find?_eq_none] at hnone
      exact hnone v hv1 (by simpa [List.elem_iff] using hv2)
  · intro db uid fn df now i j hne
    unfold upload_csv
    have hemp : (missingColumns (df.cols.map (fun c => trimStr c))).isEmpty
        = false := by
      cases hmc : missingColumns (df.cols.map (fun c => trimStr c)) with
      | nil => exact absurd hmc hne
      | cons a as => rfl
    simp only [hemp, Bool.false_eq_true, if_false]
  · intro cols std v h
    obtain ⟨hmem, hp, pre, post, heq, hpre⟩ := find?_first _ _ _ h
    simp only [List.elem_iff] at hp
    refine ⟨hp, pre, post, heq, ?_⟩
    intro w hw
    have h3 : cols.contains w = false := hpre w hw
    intro hc
    have h2 : cols.contains w = true := List.elem_iff.2 hc
    rw [h3] at h2
    exact Bool.noConfusion h2
  · intro cols hmiss std hstd
    have h1 : ∀ s ∈ requiredColumns, ∃ v ∈ variationsOf s, v ∈ cols := by
      intro s hs
      unfold missingColumns at hmiss
      rw [List.filter_eq_nil_iff] at hmiss
      have := hmiss s hs
      simp only [Option.isNone_iff_eq_none, decide_eq_true_eq] at this
      cases hac : actualColumn cols s with
      | none => exact absurd hac this
      | some v =>
          have hv := hact cols s v hac
          exact ⟨v, hv.1, hv.2⟩
    cases hac : actualColumn cols std with
    | none =>
        obtain ⟨v, hv1, hv2⟩ := h1 std hstd
        unfold actualColumn at hac
        rw [List.find?_eq_none] at hac
        exact absurd (hac v hv1) (by simpa [List.elem_iff] using hv2)
    | some v =>
        have hv := hact cols std v hac
        have hfind : requiredColumns.find?
            (fun s => actualColumn cols s = some v) = some std := by
          apply find?_of_unique
          · exact hstd
          · simp only [decide_eq_true_eq]; exact hac
          · intro x hx hpx
            simp only [decide_eq_true_eq] at hpx
            exact variations_disjoint x hx std hstd v
              (hact cols x v hpx).1 hv.1
        have hren : renameCol cols v = std := by
          unfold renameCol
          rw [hfind]
        unfold renamedCols
        exact List.mem_map.2 ⟨v, hv.2, hren⟩

/-- C5 witness: a header missing Temperature is rejected with exactly that
missing list and the stripped header, and nothing is stored; a complete
header of accepted variations is fully renamed. -/
theorem column_normalization_witness :
    (missingColumns ["Name", "type", "Flow Rate", "Pressure"] ≠ [] →
      upload_csv ⟨[], []⟩ 7 "a.csv"
          ⟨[" Name ", "type", "Flow Rate", "Pressure"], []⟩ 0 1 1 =
        (⟨[], []⟩, .missingCols ["Temperature"]
          ["Name", "type", "Flow Rate", "Pressure"])) ∧
    ("Equipment Name" ∈
      renamedCols ["Name", "type", "Flow Rate", "Pressure", "Temp"]) := by
  constructor
  · intro h
    have := column_normalization.2.1 ⟨[], []⟩ 7 "a.csv"
      ⟨[" Name ", "type", "Flow Rate", "Pressure"], []⟩ 0 1 1
      (by decide)
    rw [this]
    congr 1
  · exact column_normalization.2.2.2
      ["Name", "type", "Flow Rate", "Pressure", "Temp"] (by decide)
      "Equipment Name" (by decide)

theorem mem_firstOccs : ∀ (l : List String) (t : String),
    t ∈ firstOccs l ↔ t ∈ l := by
  intro l
  induction l using firstOccs.induct with
  | case1 => intro t; simp [firstOccs]
  | case2 s rest ih =>
      intro t
      have hunf : firstOccs (s :: rest) =
          s :: firstOccs (rest.filter (fun x => decide (¬ x = s))) := by
        simp [firstOccs]
      rw [hunf]
      constructor
      · intro h
        rcases List.mem_cons.1 h with h1 | h1
        · rw [h1]; exact List.mem_cons_self _ _
        · have h2 := (ih t).1 h1
          exact List.mem_cons_of_mem _ (List.mem_of_mem_filter h2)
      · intro h
        rcases List.mem_cons.1 h with h1 | h1
        · rw [h1]; exact List.mem_cons_self _ _
        · by_cases hts : t = s
          · rw [hts]; exact List.mem_cons_self _ _
          · refine List.mem_cons_of_mem _ ((ih t).2 ?_)
            rw [List.mem_filter]
            exact ⟨h1, by simpa using hts⟩

theorem typeDistribution_spec (cols : List String)
    (rows : List (List RawCell)) (t : String) (n : Nat) :
    (t, n) ∈ typeDistribution cols rows ↔
      (t ∈ typeValues cols rows ∧
       n = countOcc (typeValues cols rows) t) := by
  unfold typeDistribution
  rw [List.mem_map]
  constructor
  · rintro ⟨t0, ht0, heq⟩
    have h1 : t0 = t := congrArg Prod.fst heq
    have h2 : countOcc (typeValues cols rows) t0 = n := congrArg Prod.snd heq
    subst h1
    exact ⟨(mem_firstOccs _ _).1 ht0, h2.symm⟩
  · rintro ⟨hmem, hn⟩
    exact ⟨t, (mem_firstOccs _ _).2 hmem, by rw [hn]⟩

theorem sortDatasetsDesc_perm (l : List Dataset) :
    (sortDatasetsDesc l).Perm l :=
  List.perm_insertionSort _ l

theorem prune_datasets_eq (db2 : DataDB) (uid : Nat) :
    (pruneUserDatasets db2 uid).1.datasets =
      db2.datasets.filter (fun d =>
        decide (¬ d.id ∈ (pruneUserDatasets db2 uid).2)) := rfl

theorem prune_equipment_eq (db2 : DataDB) (uid : Nat) :
    (pruneUserDatasets db2 uid).1.equipment =
      db2.equipment.filter (fun e =>
        decide (¬ e.datasetId ∈ (pruneUserDatasets db2 uid).2)) := rfl

theorem prune_deleted_eq (db2 : DataDB) (uid : Nat) :
    (pruneUserDatasets db2 uid).2 =
      ((sortDatasetsDesc (db2.datasets.filter (fun d =>
        decide (d.userId = uid)))).drop 5).map (fun d => d.id) := rfl

theorem prune_user_count_le (db2 : DataDB) (uid : Nat) :
    ((pruneUserDatasets db2 uid).1.datasets.filter (fun d =>
      decide (d.userId = uid))).length ≤ 5 := by
  rw [prune_datasets_eq]
  rw [List.filter_filter]
  have hcomm : (db2.datasets.filter (fun d => decide (d.userId = uid) &&
      decide (¬ d.id ∈ (pruneUserDatasets db2 uid).2))) =
      ((db2.datasets.filter (fun d => decide (d.userId = uid))).filter
        (fun d => decide (¬ d.id ∈ (pruneUserDatasets db2 uid).2))) := by
    rw [List.filter_filter]
    apply List.filter_congr
    intro d _
    rw [Bool.and_comm]
  rw [hcomm]
  have hperm := (sortDatasetsDesc_perm (db2.datasets.filter (fun d =>
    decide (d.userId = uid)))).filter
    (fun d => decide (¬ d.id ∈ (pruneUserDatasets db2 uid).2))
  rw [← hperm.length_eq]
  set sorted := sortDatasetsDesc (db2.datasets.filter (fun d =>
    decide (d.userId = uid))) with hsorted
  have hsplit : sorted = sorted.take 5 ++ sorted.drop 5 :=
    (List.take_append_drop 5 sorted).symm
  rw [hsplit, List.filter_append]
  have hdrop : (sorted.drop 5).filter (fun d =>
      decide (¬ d.id ∈ (pruneUserDatasets db2 uid).2)) = [] := by
    rw [List.filter_eq_nil_iff]
    intro d hd
    simp only [decide_eq_true_eq, Bool.not_eq_true, decide_eq_false_iff_not,
      not_not]
    rw [prune_deleted_eq]
    exact List.mem_map.2 ⟨d, hd, rfl⟩
  rw [hdrop, List.append_nil]
  calc ((sorted.take 5).filter _).length
      ≤ (sorted.take 5).length := List.length_filter_le _ _
    _ ≤ 5 := by rw [List.length_take]; exact min_le_left _ _

theorem prune_user_mem_iff (db2 : DataDB) (uid : Nat)
    (hnodup : (db2.datasets.map (fun d => d.id)).Nodup) :
    ∀ d ∈ db2.datasets, d.userId = uid →
      (d ∈ (pruneUserDatasets db2 uid).1.datasets ↔
        d ∈ (sortDatasetsDesc (db2.datasets.filter (fun x =>
          decide (x.userId = uid)))).take 5) := by
  intro d hd hdu
  set sorted := sortDatasetsDesc (db2.datasets.filter (fun x =>
    decide (x.userId = uid))) with hsorted
  have hdperm : sorted.Perm (db2.datasets.filter (fun x =>
    decide (x.userId = uid))) := sortDatasetsDesc_perm _
  have hmemsorted : d ∈ sorted := by
    rw [hdperm.mem_iff, List.mem_filter]
    exact ⟨hd, by simpa using hdu⟩
  have hnodatasets : db2.datasets.Nodup := List.Nodup.of_map _ hnodup
  have hnosorted : sorted.Nodup :=
    hdperm.nodup_iff.2 (hnodatasets.filter _)
  have hsplit : sorted.take 5 ++ sorted.drop 5 = sorted :=
    List.take_append_drop 5 sorted
  have hdisj : List.Disjoint (sorted.take 5) (sorted.drop 5) := by
    apply List.disjoint_of_nodup_append
    rw [hsplit]
    exact hnosorted
  have hdelmem : d.id ∈ (pruneUserDatasets db2 uid).2 ↔
      d ∈ sorted.drop 5 := by
    rw [prune_deleted_eq]
    constructor
    · intro h
      rcases List.mem_map.1 h with ⟨d2, hd2, hid⟩
      have hd2mem : d2 ∈ db2.datasets := by
        have := List.mem_of_mem_drop hd2
        rw [hdperm.mem_iff, List.mem_filter] at this
        exact this.1
      have : d2 = d :=
        List.inj_on_of_nodup_map hnodup hd2mem hd hid
      rw [← this]
      exact hd2
    · intro h
      exact List.mem_map.2 ⟨d, h, rfl⟩
  rw [prune_datasets_eq, List.mem_filter]
  constructor
  · rintro ⟨-, hdec⟩
    simp only [decide_eq_true_eq] at hdec
    rw [hdelmem] at hdec
    rcases (List.mem_append.1 (by rw [hsplit]; exact hmemsorted :
        d ∈ sorted.take 5 ++ sorted.drop 5)) with h1 | h1
    · exact h1
    · exact absurd h1 hdec
  · intro htake
    refine ⟨hd, ?_⟩
    simp only [decide_eq_true_eq]
    rw [hdelmem]
    intro hdropmem
    exact hdisj htake hdropmem

theorem prune_cascade_iff (db2 : DataDB) (uid : Nat) :
    ∀ e ∈ db2.equipment,
      (e ∈ (pruneUserDatasets db2 uid).1.equipment ↔
        ¬ ∃ d ∈ db2.datasets, d.id = e.datasetId ∧
          ¬ d ∈ (pruneUserDatasets db2 uid).1.datasets) := by
  intro e he
  rw [prune_equipment_eq, List.mem_filter]
  constructor
  · rintro ⟨-, hdec⟩ ⟨d, hd, hid, hnotin⟩
    simp only [decide_eq_true_eq] at hdec
    apply hnotin
    rw [prune_datasets_eq, List.mem_filter]
    refine ⟨hd, ?_⟩
    simp only [decide_eq_true_eq]
    rw [hid]
    exact hdec
  · intro hno
    refine ⟨he, ?_⟩
    simp only [decide_eq_true_eq]
    intro hmemdel
    rw [prune_deleted_eq] at hmemdel
    rcases List.mem_map.1 hmemdel with ⟨d2, hd2, hid⟩
    have hd2mem : d2 ∈ db2.datasets := by
      have := List.mem_of_mem_drop hd2
      rw [(sortDatasetsDesc_perm _).mem_iff, List.mem_filter] at this
      exact this.1
    refine hno ⟨d2, hd2mem, hid, ?_⟩
    rw [prune_datasets_eq, List.mem_filter]
    rintro ⟨-, hdec⟩
    simp only [decide_eq_true_eq] at hdec
    apply hdec
    rw [prune_deleted_eq]
    exact List.mem_map.2 ⟨d2, hd2, rfl⟩

theorem upload_csv_success (db : DataDB) (uid : Nat) (fn : String) (df : DF)
    (now dsId eqBase : Nat)
    (hm : missingColumns (df.cols.map (fun c => trimStr c)) = [])
    (hv : validRows df ≠ []) :
    upload_csv db uid fn df now dsId eqBase =
      ((pruneUserDatasets
          ⟨db.datasets ++ [mkDatasetRecord df uid fn now dsId],
           db.equipment ++ newEquipRecords df dsId eqBase⟩ uid).1,
       .created dsId (mkDatasetRecord df uid fn now dsId).total_equipment
         (mkDatasetRecord df uid fn now dsId).avg_flowrate
         (mkDatasetRecord df uid fn now dsId).avg_pressure
         (mkDatasetRecord df uid fn now dsId).avg_temperature
         (mkDatasetRecord df uid fn now dsId).type_distribution) := by
  unfold upload_csv
  have hvr : (validRows df).isEmpty = false := by
    cases hvrc : validRows df with
    | nil => exact absurd hvrc hv
    | cons a as => rfl
  simp only [hm, List.isEmpty_nil, if_true, hvr, Bool.false_eq_true, if_false]

theorem prune_id (db2 : DataDB) (uid : Nat)
    (hle : (db2.datasets.filter (fun d =>
      decide (d.userId = uid))).length ≤ 5) :
    (pruneUserDatasets db2 uid).1 = db2 := by
  have hlen : (sortDatasetsDesc (db2.datasets.filter (fun d =>
      decide (d.userId = uid)))).length ≤ 5 := by
    rw [(sortDatasetsDesc_perm _).length_eq]
    exact hle
  have hdel : (pruneUserDatasets db2 uid).2 = [] := by
    rw [prune_deleted_eq, List.drop_eq_nil_of_le hlen]
    rfl
  have h1 : (pruneUserDatasets db2 uid).1.datasets = db2.datasets := by
    rw [prune_datasets_eq, hdel]
    rw [List.filter_eq_self]
    intro a _
    simp
  have h2 : (pruneUserDatasets db2 uid).1.equipment = db2.equipment := by
    rw [prune_equipment_eq, hdel]
    rw [List.filter_eq_self]
    intro a _
    simp
  cases hp : (pruneUserDatasets db2 uid).1 with
  | mk ds eq =>
      cases db2 with
      | mk ds2 eq2 =>
          rw [hp] at h1 h2
          simp only at h1 h2
          rw [h1, h2]

theorem newEquipRecords_datasetId (df : DF) (dsId eqBase : Nat) :
    ∀ x ∈ newEquipRecords df dsId eqBase, x.datasetId = dsId := by
  intro x hx
  rcases List.mem_map.1 hx with ⟨p, _, hp⟩
  rw [← hp]

/-- C4: for an upload whose required columns are all present and that keeps
at least one row after dropping rows with unparsable Flowrate, Pressure or
Temperature, the response and the stored Dataset carry: the surviving row
count, each column's arithmetic mean rounded to 2 decimal places, and the
per-Type row counts; and exactly one Equipment record is stored per
surviving row.  (The user is assumed under the retention cap so the fresh
records are not immediately pruned; C10 covers pruning.) -/
theorem upload_summary_stats :
    ∀ (db : DataDB) (uid : Nat) (fn : String) (df : DF)
      (now dsId eqBase : Nat),
      missingColumns (df.cols.map (fun c => trimStr c)) = [] →
      validRows df ≠ [] →
      (db.datasets.filter (fun d => decide (d.userId = uid))).length ≤ 4 →
      (∀ e ∈ db.equipment, ¬ e.datasetId = dsId) →
      upload_csv db uid fn df now dsId eqBase =
        (⟨db.datasets ++ [mkDatasetRecord df uid fn now dsId],
          db.equipment ++ newEquipRecords df dsId eqBase⟩,
         .created dsId (validRows df).length
           (round2 (colMean (normCols df) (validRows df) "Flowrate"))
           (round2 (colMean (normCols df) (validRows df) "Pressure"))
           (round2 (colMean (normCols df) (validRows df) "Temperature"))
           (typeDistribution (normCols df) (validRows df))) ∧
      (∀ t n, (t, n) ∈ typeDistribution (normCols df) (validRows df) ↔
        (t ∈ typeValues (normCols df) (validRows df) ∧
         n = countOcc (typeValues (normCols df) (validRows df)) t)) ∧
      ((upload_csv db uid fn df now dsId eqBase).1.equipment.filter
        (fun e => decide (e.datasetId = dsId))) =
          newEquipRecords df dsId eqBase ∧
      (newEquipRecords df dsId eqBase).length = (validRows df).length := by
  intro db uid fn df now dsId eqBase hm hv hcount heqfresh
  have hsucc := upload_csv_success db uid fn df now dsId eqBase hm hv
  have hcnt2 : (((⟨db.datasets ++ [mkDatasetRecord df uid fn now dsId],
      db.equipment ++ newEquipRecords df dsId eqBase⟩ : DataDB)).datasets.filter
      (fun d => decide (d.userId = uid))).length ≤ 5 := by
    show ((db.datasets ++ [mkDatasetRecord df uid fn now dsId]).filter
      (fun d => decide (d.userId = uid))).length ≤ 5
    rw [List.filter_append]
    have hone : ([mkDatasetRecord df uid fn now dsId].filter
        (fun d => decide (d.userId = uid))).length ≤ 1 :=
      List.length_filter_le _ _
    rw [List.length_append]
    omega
  have hid := prune_id _ uid hcnt2
  have hmain : upload_csv db uid fn df now dsId eqBase =
      (⟨db.datasets ++ [mkDatasetRecord df uid fn now dsId],
        db.equipment ++ newEquipRecords df dsId eqBase⟩,
       .created dsId (validRows df).length
         (round2 (colMean (normCols df) (validRows df) "Flowrate"))
         (round2 (colMean (normCols df) (validRows df) "Pressure"))
         (round2 (colMean (normCols df) (validRows df) "Temperature"))
         (typeDistribution (normCols df) (validRows df))) := by
    rw [hsucc, hid]
    rfl
  refine ⟨hmain, ?_, ?_, ?_⟩
  · intro t n
    exact typeDistribution_spec (normCols df) (validRows df) t n
  · rw [hmain]
    show ((db.equipment ++ newEquipRecords df dsId eqBase).filter
      (fun e => decide (e.datasetId = dsId))) =
        newEquipRecords df dsId eqBase
    rw [List.filter_append]
    have h1 : db.equipment.filter (fun e => decide (e.datasetId = dsId))
        = [] := by
      rw [List.filter_eq_nil_iff]
      intro e he
      simpa using heqfresh e he
    have h2 : (newEquipRecords df dsId eqBase).filter
        (fun e => decide (e.datasetId = dsId)) =
        newEquipRecords df dsId eqBase := by
      rw [List.filter_eq_self]
      intro x hx
      simpa using newEquipRecords_datasetId df dsId eqBase x hx
    rw [h1, h2, List.nil_append]
  · unfold newEquipRecords
    rw [List.length_map, List.enum_length]

/-- C4 witness: a concrete upload of a three-row table (one row has an
unparsable Flowrate) into an empty store. -/
theorem upload_summary_stats_witness :
    (newEquipRecords
      ⟨[" Name ", "type", "Flow Rate", "Pressure", "Temp"],
       [[⟨none, "P1"⟩, ⟨none, "Pump"⟩, ⟨some 10, "10"⟩, ⟨some 2, "2"⟩,
         ⟨some 100, "100"⟩],
        [⟨none, "P2"⟩, ⟨none, "Pump"⟩, ⟨some 20, "20"⟩, ⟨some 3, "3"⟩,
         ⟨some 101, "101"⟩],
        [⟨none, "V1"⟩, ⟨none, "Valve"⟩, ⟨none, "bad"⟩, ⟨some 4, "4"⟩,
         ⟨some 102, "102"⟩]]⟩ 1 1).length =
    (validRows
      ⟨[" Name ", "type", "Flow Rate", "Pressure", "Temp"],
       [[⟨none, "P1"⟩, ⟨none, "Pump"⟩, ⟨some 10, "10"⟩, ⟨some 2, "2"⟩,
         ⟨some 100, "100"⟩],
        [⟨none, "P2"⟩, ⟨none, "Pump"⟩, ⟨some 20, "20"⟩, ⟨some 3, "3"⟩,
         ⟨some 101, "101"⟩],
        [⟨none, "V1"⟩, ⟨none, "Valve"⟩, ⟨none, "bad"⟩, ⟨some 4, "4"⟩,
         ⟨some 102, "102"⟩]]⟩).length :=
  (upload_summary_stats ⟨[], []⟩ 7 "a.csv"
    ⟨[" Name ", "type", "Flow Rate", "Pressure", "Temp"],
     [[⟨none, "P1"⟩, ⟨none, "Pump"⟩, ⟨some 10, "10"⟩, ⟨some 2, "2"⟩,
       ⟨some 100, "100"⟩],
      [⟨none, "P2"⟩, ⟨none, "Pump"⟩, ⟨some 20, "20"⟩, ⟨some 3, "3"⟩,
       ⟨some 101, "101"⟩],
      [⟨none, "V1"⟩, ⟨none, "Valve"⟩, ⟨none, "bad"⟩, ⟨some 4, "4"⟩,
       ⟨some 102, "102"⟩]]⟩ 0 1 1
    (by decide) (by decide) (by decide) (by decide)).2.2.2

/-- C10: per-user dataset retention.  After every successful CSV upload the
requesting user keeps at most 5 datasets — a user's dataset survives
exactly when it is among the 5 most recently uploaded (given distinct
primary keys) — an equipment row survives exactly when its dataset was not
deleted (the cascade), and the history endpoint returns at most the 5 most
recent datasets of the user. -/
theorem retention_cap :
    (∀ (db : DataDB) (uid : Nat) (fn : String) (df : DF)
      (now dsId eqBase : Nat),
      missingColumns (df.cols.map (fun c => trimStr c)) = [] →
      validRows df ≠ [] →
      ((db.datasets ++ [mkDatasetRecord df uid fn now dsId]).map
        (fun d => d.id)).Nodup →
      (((upload_csv db uid fn df now dsId eqBase).1.datasets.filter
          (fun d => decide (d.userId = uid))).length ≤ 5) ∧
      (∀ d ∈ db.datasets ++ [mkDatasetRecord df uid fn now dsId],
        d.userId = uid →
        (d ∈ (upload_csv db uid fn df now dsId eqBase).1.datasets ↔
          d ∈ (sortDatasetsDesc
            ((db.datasets ++ [mkDatasetRecord df uid fn now dsId]).filter
              (fun x => decide (x.userId = uid)))).take 5)) ∧
      (∀ e ∈ db.equipment ++ newEquipRecords df dsId eqBase,
        (e ∈ (upload_csv db uid fn df now dsId eqBase).1.equipment ↔
          ¬ ∃ d ∈ db.datasets ++ [mkDatasetRecord df uid fn now dsId],
            d.id = e.datasetId ∧
            ¬ d ∈ (upload_csv db uid fn df now dsId eqBase).1.datasets))) ∧
    (∀ (db : DataDB) (uid : Nat),
      get_history db uid = (sortDatasetsDesc (db.datasets.filter
        (fun d => decide (d.userId = uid)))).take 5 ∧
      (get_history db uid).length ≤ 5) := by
  constructor
  · intro db uid fn df now dsId eqBase hm hv hnodup
    have hsucc := upload_csv_success db uid fn df now dsId eqBase hm hv
    have hfst : (upload_csv db uid fn df now dsId eqBase).1 =
        (pruneUserDatasets
          ⟨db.datasets ++ [mkDatasetRecord df uid fn now dsId],
           db.equipment ++ newEquipRecords df dsId eqBase⟩ uid).1 := by
      rw [hsucc]
    refine ⟨?_, ?_, ?_⟩
    · rw [hfst]
      exact prune_user_count_le _ uid
    · intro d hd hdu
      rw [hfst]
      exact prune_user_mem_iff _ uid hnodup d hd hdu
    · intro e he
      rw [hfst]
      exact prune_cascade_iff _ uid e he
  · intro db uid
    refine ⟨rfl, ?_⟩
    unfold get_history
    rw [List.length_take]
    exact min_le_left _ _

/-- C10 witness: uploading a sixth dataset for user 7 (five older ones
already stored) applied concretely, and the history bound at that store. -/
theorem retention_cap_witness :
    (((upload_csv
        ⟨[⟨1, 7, "a", 10, 1, 1, 1, 1, []⟩, ⟨2, 7, "b", 20, 1, 1, 1, 1, []⟩,
          ⟨3, 7, "c", 30, 1, 1, 1, 1, []⟩, ⟨4, 7, "d", 40, 1, 1, 1, 1, []⟩,
          ⟨5, 7, "e", 50, 1, 1, 1, 1, []⟩], []⟩ 7 "f.csv"
        ⟨["Name", "Type", "Flowrate", "Pressure", "Temperature"],
         [[⟨none, "P1"⟩, ⟨none, "Pump"⟩, ⟨some 10, "10"⟩, ⟨some 2, "2"⟩,
           ⟨some 100, "100"⟩]]⟩ 60 6 1).1.datasets.filter
        (fun d => decide (d.userId = 7))).length ≤ 5) ∧
    (get_history ⟨[], []⟩ 7).length ≤ 5 := by
  constructor
  · exact (retention_cap.1
      ⟨[⟨1, 7, "a", 10, 1, 1, 1, 1, []⟩, ⟨2, 7, "b", 20, 1, 1, 1, 1, []⟩,
        ⟨3, 7, "c", 30, 1, 1, 1, 1, []⟩, ⟨4, 7, "d", 40, 1, 1, 1, 1, []⟩,
        ⟨5, 7, "e", 50, 1, 1, 1, 1, []⟩], []⟩ 7 "f.csv"
      ⟨["Name", "Type", "Flowrate", "Pressure", "Temperature"],
       [[⟨none, "P1"⟩, ⟨none, "Pump"⟩, ⟨some 10, "10"⟩, ⟨some 2, "2"⟩,
         ⟨some 100, "100"⟩]]⟩ 60 6 1
      (by decide) (by decide) (by decide)).1
  · exact (retention_cap.2 ⟨[], []⟩ 7).2

end CEPV
